import Mathlib

/-!
# A verification development for a dataclass serialization engine

This file gives a shallow embedding, in Lean 4, of a small Python library
(`dataclass_serializer`) that converts typed records ("entities") into a
JSON-compatible tree and back.  The embedding follows the Python source
function by function:

* `Value` models the universe of Python runtime values the library handles
  (JSON primitives, lists, string-keyed dicts, tuples, sets, `OrderedDict`,
  `date`, `datetime`, `Decimal`, type / function / module references,
  dataclass instances, and the `no_default` sentinel).
* `_serialize` / `_deserialize` model the recursive value tagger and untagger.
* `serializeObj` / `deserializeObj` model `Serializable.serialize` and
  `Serializable.deserialize`.
* `construct` models dataclass construction followed by
  `Serializable.__post_init__` (contract validation and the `no_default`
  check).
* `Env` models the external dynamic-import collaborator
  (`import_module` / `getattr`): resolution of fully-qualified identifiers
  to classes, attributes and modules.

Machine-level caveats of the model are documented at each definition.
-/

namespace DSer

/-- Failure kinds raised by the engine, mirroring the Python exception
classes that the source can raise (`TypeError`, `ValueError`,
lookup/import failures, `KeyError`, `AttributeError`, `IndexError`).
`outOfFuel` is an artifact of the embedding: recursion through a field
default or through an `encode` hook is genuinely unbounded in Python
(it can diverge), so those two call sites consume explicit fuel. -/
inductive Err where
  | typeError (msg : String)
  | valueError (msg : String)
  | lookupError (msg : String)
  | keyError (msg : String)
  | attrError (msg : String)
  | indexError (msg : String)
  | outOfFuel
deriving DecidableEq, Repr

/-- A timezone-aware or naive `datetime.datetime` value: calendar fields,
microseconds, and an optional fixed UTC offset in minutes
(`tzOffset = none` models a naive datetime). -/
structure DatetimeV where
  year : Nat
  month : Nat
  day : Nat
  hour : Nat
  minute : Nat
  second : Nat
  usec : Nat
  tzOffset : Option Int
deriving DecidableEq, Repr

/-- The universe of runtime values handled by the library.  Python `dict`
keys are modelled as strings (the JSON-compatible case the library
targets); `OrderedDict` keys may be arbitrary values, matching the tests.
A dataclass instance (`entity`) stores the fully-qualified name of its
class and its `__dict__` as a name-keyed association list in field
declaration order; the class metadata itself lives in `Env`.
A Python `set` is modelled by the list of its (distinct) members in
iteration order; a `Decimal` by its canonical string form. -/
inductive Value where
  | none
  | bool (b : Bool)
  | int (n : Int)
  | str (s : String)
  | list (xs : List Value)
  | tuple (xs : List Value)
  | set (xs : List Value)
  | dict (entries : List (String × Value))
  | odict (entries : List (Value × Value))
  | date (y m d : Nat)
  | datetime (dt : DatetimeV)
  | decimal (s : String)
  | typeRef (mod nm : String)
  | funcRef (mod nm : String)
  | moduleRef (nm : String)
  | entity (mod nm : String) (vals : List (String × Value))
  | noDefault
deriving Repr

/-- The reserved marker key (`META_FIELD = "__ser__"` in the source). -/
def META_FIELD : String := "__ser__"

/-- A dataclass field descriptor, modelling `dataclasses.Field` as the
library reads it: `isOptional` is the result of `_is_optional_field`
(the declared type permits `None`); `default` / `defaultFactory` model
`Field.default` / `Field.default_factory` (`none` standing for
`dataclasses.MISSING`, and a factory modelled by the value it produces);
`encode` / `decode` / `contract` model the metadata hooks. -/
structure FieldDesc where
  name : String
  isOptional : Bool
  default : Option Value
  defaultFactory : Option Value
  encode : Option (Value → Value)
  decode : Option (Value → Value)
  contract : Option (Value → Bool)

/-- A dataclass declaration: defining module, class name, ordered fields. -/
structure ClassDesc where
  module : String
  name : String
  fields : List FieldDesc

/-- The external dynamic-import collaborator.  `getClass m n` models
`getattr(import_module(m), n)` when the resolved attribute is a
`Serializable` dataclass; `getAttr m n` models the same lookup for the
`type` / `function` tags, returning the resolved runtime object;
`getModule n` models whether `import_module(n)` succeeds. -/
structure Env where
  getClass : String → String → Option ClassDesc
  getAttr : String → String → Option Value
  getModule : String → Bool

/-- First-match association-list lookup, modelling Python `dict`
access on a dict with (as in Python) unique keys. -/
def lookupKey : List (String × Value) → String → Option Value
  | [], _ => Option.none
  | kv :: t, k => if kv.1 = k then some kv.2 else lookupKey t k

/-- Remove the entries with the given key, modelling `dict.pop(k, None)`
(real dicts have unique keys, so removing all matches is equivalent). -/
def removeKey (k : String) : List (String × Value) → List (String × Value)
  | [] => []
  | kv :: t => if kv.1 = k then removeKey k t else kv :: removeKey k t

/-- Wrap a string in single quotes (for the `__post_init__` message). -/
def squote (s : String) : String :=
  String.singleton (Char.ofNat 39) ++ s ++ String.singleton (Char.ofNat 39)

/-- `_default_value` from the source: the declared default if present,
else a fresh value produced by the default factory if present, else
`dataclasses.MISSING` (modelled as `none`). -/
def _default_value (f : FieldDesc) : Option Value :=
  match f.default with
  | some d => some d
  | Option.none => f.defaultFactory

/-- Apply the `decode` metadata hook if declared, as `deserialize` does
after generic untagging. -/
def applyDecode (f : FieldDesc) (v : Value) : Value :=
  match f.decode with
  | some dec => dec v
  | Option.none => v

/-- `value is None` (the Python identity test against `None`). -/
def isNoneV : Value → Bool
  | Value.none => true
  | _ => false

/-- The per-field body of `_validate_contracts`: a `None` value is allowed
only for an optional field (`TypeError` otherwise), and a declared
`contract` predicate must hold for a non-`None` value (`ValueError`
otherwise); the contract is not evaluated on a `None` value. -/
def checkField (clsName : String) (f : FieldDesc) (v : Value) : Except Err Unit :=
  if isNoneV v && !f.isOptional then
    Except.error (Err.typeError (f.name ++ " is not optional"))
  else
    match f.contract with
    | some p =>
      if !isNoneV v && !p v then
        Except.error (Err.valueError ("break the contract for " ++ f.name ++ ", " ++ clsName))
      else Except.ok ()
    | Option.none => Except.ok ()

/-- The loop of `_validate_contracts` over the declared fields; reading a
missing attribute would be an `AttributeError` in Python. -/
def validateFields (clsName : String) : List FieldDesc → List (String × Value) → Except Err Unit
  | [], _ => Except.ok ()
  | f :: fs, vals =>
    match lookupKey vals f.name with
    | Option.none => Except.error (Err.attrError f.name)
    | some v => (checkField clsName f v).bind fun _ => validateFields clsName fs vals

/-- `Serializable._validate_contracts`. -/
def _validate_contracts (cd : ClassDesc) (vals : List (String × Value)) : Except Err Unit :=
  validateFields cd.name cd.fields vals

/-- The second loop of `__post_init__`: fail on the first attribute whose
value is still the `no_default` sentinel. -/
def checkNoDefault : List (String × Value) → Except Err Unit
  | [] => Except.ok ()
  | kv :: t =>
    match kv.2 with
    | Value.noDefault =>
      Except.error (Err.typeError ("__init__ missing 1 required argument: " ++ squote kv.1))
    | _ => checkNoDefault t

/-- Dataclass construction followed by `Serializable.__post_init__`:
contract validation first, then the `no_default` sentinel check.  The
model takes the full `__dict__` (all attributes supplied, as on every
call site in the source). -/
def construct (cd : ClassDesc) (vals : List (String × Value)) : Except Err Value :=
  (_validate_contracts cd vals).bind fun _ =>
  (checkNoDefault vals).bind fun _ =>
  Except.ok (Value.entity cd.module cd.name vals)

/-! ## Decimal digit strings

Fixed-width zero-padded decimal formatting and parsing, used to model
`date.strftime("%Y%m%d")`, `datetime.isoformat`, and their inverses
(`datetime.strptime(_, "%Y%m%d")`, `datetime.fromisoformat`). -/

/-- Zero-padded decimal rendering of `n` to exactly `len` digits,
most significant digit first. -/
def pad : Nat → Nat → List Char
  | 0, _ => []
  | l + 1, n => pad l (n / 10) ++ [Nat.digitChar (n % 10)]

/-- The numeric value of a decimal digit character. -/
def charVal (c : Char) : Nat := c.toNat - 48

/-- Consume exactly `n` decimal digits from the front of `l`,
accumulating their value into `acc`; fail on a non-digit or on
running out of characters. -/
def takeGo : Nat → Nat → List Char → Option (Nat × List Char)
  | 0, acc, l => some (acc, l)
  | _ + 1, _, [] => Option.none
  | n + 1, acc, c :: l => if c.isDigit then takeGo n (acc * 10 + charVal c) l else Option.none

/-- Consume exactly `n` decimal digits from the front of `l`. -/
def takeDigits (n : Nat) (l : List Char) : Option (Nat × List Char) := takeGo n 0 l

/-- Consume one expected character from the front of `l`. -/
def expectChar (c : Char) : List Char → Option (List Char)
  | [] => Option.none
  | x :: l => if x = c then some l else Option.none

theorem pad_length : ∀ l n, (pad l n).length = l := by
  intro l
  induction l with
  | zero => intro n; simp [pad]
  | succ l ih => intro n; simp [pad, ih]

theorem digitChar_isDigit {n : Nat} (h : n < 10) : (Nat.digitChar n).isDigit = true := by
  interval_cases n <;> decide

theorem charVal_digitChar {n : Nat} (h : n < 10) : charVal (Nat.digitChar n) = n := by
  interval_cases n <;> decide

theorem takeGo_add (m k acc : Nat) (l : List Char) :
    takeGo (m + k) acc l = (takeGo m acc l).bind fun p => takeGo k p.1 p.2 := by
  induction m generalizing acc l with
  | zero => simp [takeGo]
  | succ m ih =>
    have hmk : m + 1 + k = (m + k) + 1 := by omega
    rw [hmk]
    cases l with
    | nil => simp [takeGo]
    | cons c l =>
      simp only [takeGo]
      by_cases hc : c.isDigit
      · simp [hc, ih]
      · simp [hc]

theorem takeGo_pad {len n : Nat} (acc : Nat) (rest : List Char) (h : n < 10 ^ len) :
    takeGo len acc (pad len n ++ rest) = some (acc * 10 ^ len + n, rest) := by
  induction len generalizing acc n rest with
  | zero =>
    have : n = 0 := by simpa using h
    subst this
    simp [pad, takeGo]
  | succ len ih =>
    have hdiv : n / 10 < 10 ^ len := by
      rw [Nat.div_lt_iff_lt_mul (by norm_num)]
      calc n < 10 ^ (len + 1) := h
        _ = 10 ^ len * 10 := by ring
    have hmod : n % 10 < 10 := Nat.mod_lt _ (by norm_num)
    have hsplit : len + 1 = len + 1 := rfl
    rw [pad, List.append_assoc, takeGo_add len 1 acc, List.singleton_append]
    rw [ih acc (Nat.digitChar (n % 10) :: rest) hdiv]
    simp only [Option.some_bind]
    simp only [takeGo, digitChar_isDigit hmod, if_true, charVal_digitChar hmod]
    have : (acc * 10 ^ len + n / 10) * 10 + n % 10 = acc * 10 ^ (len + 1) + n := by
      have := Nat.div_add_mod n 10
      ring_nf
      omega
    rw [this]

theorem takeDigits_pad {len n : Nat} (rest : List Char) (h : n < 10 ^ len) :
    takeDigits len (pad len n ++ rest) = some (n, rest) := by
  unfold takeDigits
  rw [takeGo_pad 0 rest h]
  simp

theorem expectChar_cons (c : Char) (l : List Char) : expectChar c (c :: l) = some l := by
  simp [expectChar]

/-! ## Dates and datetimes -/

/-- Whether `y` is a Gregorian leap year. -/
def isLeap (y : Nat) : Bool := (y % 4 = 0 && y % 100 ≠ 0) || y % 400 = 0

/-- Number of days in month `m` of year `y`. -/
def daysInMonth (y m : Nat) : Nat :=
  if m = 2 then (if isLeap y then 29 else 28)
  else if m = 4 ∨ m = 6 ∨ m = 9 ∨ m = 11 then 30
  else 31

/-- Validity of a `datetime.date`: the ranges enforced by its constructor. -/
def validDate (y m d : Nat) : Bool :=
  1 ≤ y && y ≤ 9999 && 1 ≤ m && m ≤ 12 && 1 ≤ d && d ≤ daysInMonth y m

/-- `date.strftime("%Y%m%d")`: the year zero-padded to four digits, month
and day to two. -/
def formatYmd (y m d : Nat) : String :=
  String.mk (pad 4 y ++ pad 2 m ++ pad 2 d)

/-- `datetime.strptime(s, "%Y%m%d").date()`: parse exactly eight digits
and validate the calendar ranges. -/
def strptimeYmd (cs : List Char) : Option (Nat × Nat × Nat) := do
  let (y, r) ← takeDigits 4 cs
  let (m, r) ← takeDigits 2 r
  let (d, r) ← takeDigits 2 r
  if r = [] && validDate y m d then some (y, m, d) else Option.none

/-- Validity of a `datetime.datetime` as enforced by its constructor;
a fixed offset must be strictly smaller than a day in magnitude, and
(as `isoformat` renders offsets as `±HH:MM`) a whole number of minutes. -/
def validDatetime (dt : DatetimeV) : Bool :=
  validDate dt.year dt.month dt.day && dt.hour < 24 && dt.minute < 60 &&
  dt.second < 60 && dt.usec < 1000000 &&
  (match dt.tzOffset with
   | Option.none => true
   | some off => off.natAbs < 1440)

/-- The characters of `datetime.isoformat()`:
`YYYY-MM-DDTHH:MM:SS[.ffffff][±HH:MM]`, microseconds omitted when zero,
the offset omitted for a naive datetime. -/
def isoChars (dt : DatetimeV) : List Char :=
  pad 4 dt.year ++ ('-' :: pad 2 dt.month) ++ ('-' :: pad 2 dt.day) ++
  ('T' :: pad 2 dt.hour) ++ (':' :: pad 2 dt.minute) ++ (':' :: pad 2 dt.second) ++
  (if dt.usec = 0 then [] else '.' :: pad 6 dt.usec) ++
  (match dt.tzOffset with
   | Option.none => []
   | some off =>
     (if off < 0 then '-' else '+') :: (pad 2 (off.natAbs / 60) ++ (':' :: pad 2 (off.natAbs % 60))))

/-- `datetime.isoformat()`. -/
def isoformat (dt : DatetimeV) : String := String.mk (isoChars dt)

/-- Parse the optional `.ffffff` microseconds suffix. -/
def parseFrac : List Char → Option (Nat × List Char)
  | '.' :: r => do
    let (us, r) ← takeDigits 6 r
    some (us, r)
  | r => some (0, r)

/-- Parse the optional `±HH:MM` offset suffix (which must end the string). -/
def parseOffset : List Char → Option (Option Int)
  | [] => some Option.none
  | sgn :: r =>
    if sgn = '+' ∨ sgn = '-' then do
      let (h, r) ← takeDigits 2 r
      let r ← expectChar ':' r
      let (m, r) ← takeDigits 2 r
      if r = [] && h * 60 + m < 1440 then
        some (some (if sgn = '-' then -((h * 60 + m : Nat) : Int) else ((h * 60 + m : Nat) : Int)))
      else Option.none
    else Option.none

/-- `datetime.fromisoformat`, restricted to the grammar that
`datetime.isoformat` emits (full `HH:MM:SS` time, `T` separator,
six-digit fraction): parse and validate the fields. -/
def fromisoformat (cs : List Char) : Option DatetimeV := do
  let (y, r) ← takeDigits 4 cs
  let r ← expectChar '-' r
  let (mo, r) ← takeDigits 2 r
  let r ← expectChar '-' r
  let (d, r) ← takeDigits 2 r
  let r ← expectChar 'T' r
  let (h, r) ← takeDigits 2 r
  let r ← expectChar ':' r
  let (mi, r) ← takeDigits 2 r
  let r ← expectChar ':' r
  let (s, r) ← takeDigits 2 r
  let (us, r) ← parseFrac r
  let off ← parseOffset r
  let dt : DatetimeV := ⟨y, mo, d, h, mi, s, us, off⟩
  if validDatetime dt then some dt else Option.none

theorem daysInMonth_le (y m : Nat) : daysInMonth y m ≤ 31 := by
  unfold daysInMonth
  split_ifs <;> omega

theorem strptimeYmd_format {y m d : Nat} (h : validDate y m d = true) :
    strptimeYmd (formatYmd y m d).data = some (y, m, d) := by
  have hb : y ≤ 9999 ∧ m ≤ 12 ∧ d ≤ daysInMonth y m := by
    simp only [validDate, Bool.and_eq_true, decide_eq_true_eq] at h
    exact ⟨h.1.1.1.1.2, h.1.1.2, h.2⟩
  have hy : y < 10 ^ 4 := by omega
  have hm : m < 10 ^ 2 := by omega
  have hd : d < 10 ^ 2 := by
    have := daysInMonth_le y m
    omega
  show strptimeYmd (pad 4 y ++ pad 2 m ++ pad 2 d) = some (y, m, d)
  unfold strptimeYmd
  rw [List.append_assoc, ← List.append_nil (pad 2 d)]
  simp only [takeDigits_pad _ hy, takeDigits_pad _ hm, takeDigits_pad _ hd,
    Option.bind_eq_bind', Option.some_bind]
  simp [h]

theorem parseFrac_nodot {r : List Char} (h : ∀ t, r ≠ '.' :: t) : parseFrac r = some (0, r) := by
  unfold parseFrac
  split
  · rename_i t
    exact absurd rfl (h t)
  · rfl

theorem parseFrac_dot {us : Nat} (r : List Char) (h : us < 10 ^ 6) :
    parseFrac ('.' :: (pad 6 us ++ r)) = some (us, r) := by
  simp only [parseFrac]
  simp [takeDigits_pad _ h]

theorem parseOffset_none : parseOffset [] = some Option.none := rfl

/-- The characters of the `±HH:MM` offset suffix. -/
def offChars (off : Option Int) : List Char :=
  match off with
  | Option.none => []
  | some o =>
    (if o < 0 then '-' else '+') :: (pad 2 (o.natAbs / 60) ++ (':' :: pad 2 (o.natAbs % 60)))

theorem parseOffset_offChars {off : Option Int}
    (h : match off with | Option.none => True | some o => o.natAbs < 1440) :
    parseOffset (offChars off) = some off := by
  cases off with
  | none => rfl
  | some o =>
    simp only at h
    have hh : o.natAbs / 60 < 10 ^ 2 := by omega
    have hm : o.natAbs % 60 < 10 ^ 2 := by omega
    have hsum : o.natAbs / 60 * 60 + o.natAbs % 60 = o.natAbs := by omega
    have hrw : offChars (some o) =
        (if o < 0 then '-' else '+') :: (pad 2 (o.natAbs / 60) ++ (':' :: pad 2 (o.natAbs % 60))) := rfl
    have hsgn : ((if o < 0 then '-' else '+') = '+' ∨ (if o < 0 then '-' else '+') = '-') := by
      split
      · right; rfl
      · left; rfl
    rw [hrw]
    simp only [parseOffset]
    rw [if_pos hsgn, ← List.append_nil (pad 2 (o.natAbs % 60))]
    simp only [takeDigits_pad _ hh, takeDigits_pad _ hm, expectChar_cons,
      Option.bind_eq_bind', Option.some_bind]
    rw [if_pos (by simp; omega)]
    simp only [Option.some.injEq]
    by_cases hneg : o < 0
    · rw [if_pos hneg, if_pos (show ('-' : Char) = '-' from rfl)]
      omega
    · rw [if_neg hneg, if_neg (show ¬('+' : Char) = '-' by decide)]
      omega

theorem offChars_head {off : Option Int} : ∀ t, offChars off ≠ '.' :: t := by
  intro t
  cases off with
  | none => simp [offChars]
  | some o =>
    simp only [offChars]
    intro hc
    injection hc with h1 _
    revert h1
    split <;> decide

theorem fromisoformat_isoChars {dt : DatetimeV} (h : validDatetime dt = true) :
    fromisoformat (isoChars dt) = some dt := by
  have hb := h
  simp only [validDatetime, Bool.and_eq_true, decide_eq_true_eq] at hb
  obtain ⟨⟨⟨⟨⟨hdate, hh⟩, hmi⟩, hs⟩, hus⟩, htz⟩ := hb
  have hdateb : dt.year ≤ 9999 ∧ dt.month ≤ 12 ∧ dt.day ≤ daysInMonth dt.year dt.month := by
    simp only [validDate, Bool.and_eq_true, decide_eq_true_eq] at hdate
    exact ⟨hdate.1.1.1.1.2, hdate.1.1.2, hdate.2⟩
  have hy : dt.year < 10 ^ 4 := by omega
  have hmo : dt.month < 10 ^ 2 := by omega
  have hd : dt.day < 10 ^ 2 := by
    have := daysInMonth_le dt.year dt.month
    omega
  have hh2 : dt.hour < 10 ^ 2 := by omega
  have hmi2 : dt.minute < 10 ^ 2 := by omega
  have hs2 : dt.second < 10 ^ 2 := by omega
  have hus6 : dt.usec < 10 ^ 6 := by omega
  have hiso : isoChars dt =
      pad 4 dt.year ++ ('-' :: (pad 2 dt.month ++ ('-' :: (pad 2 dt.day ++ ('T' :: (pad 2 dt.hour ++
        (':' :: (pad 2 dt.minute ++ (':' :: (pad 2 dt.second ++
        ((if dt.usec = 0 then [] else '.' :: pad 6 dt.usec) ++ offChars dt.tzOffset))))))))))) := by
    simp [isoChars, offChars, List.append_assoc]
  have hfrac : parseFrac ((if dt.usec = 0 then [] else '.' :: pad 6 dt.usec) ++ offChars dt.tzOffset) =
      some (dt.usec, offChars dt.tzOffset) := by
    by_cases h0 : dt.usec = 0
    · rw [if_pos h0, List.nil_append, parseFrac_nodot offChars_head, h0]
    · rw [if_neg h0, List.cons_append, parseFrac_dot _ hus6]
  have hoff : parseOffset (offChars dt.tzOffset) = some dt.tzOffset := by
    apply parseOffset_offChars
    cases htzo : dt.tzOffset with
    | none => trivial
    | some o =>
      rw [htzo] at htz
      simpa using htz
  rw [hiso]
  unfold fromisoformat
  simp only [takeDigits_pad _ hy, takeDigits_pad _ hmo, takeDigits_pad _ hd,
    takeDigits_pad _ hh2, takeDigits_pad _ hmi2, takeDigits_pad _ hs2,
    expectChar_cons, hfrac, hoff, Option.bind_eq_bind', Option.some_bind]
  rw [if_pos h]

/-! ## Size lemmas for termination -/

theorem sizeOf_lookup_lt {l : List (String × Value)} {k : String} {v : Value}
    (h : lookupKey l k = some v) : sizeOf v < sizeOf l := by
  induction l with
  | nil => simp [lookupKey] at h
  | cons kv t ih =>
    simp only [lookupKey] at h
    by_cases hk : kv.1 = k
    · rw [if_pos hk] at h
      injection h with h
      subst h
      cases kv with
      | mk a b => simp; omega
    · rw [if_neg hk] at h
      have := ih h
      cases kv with
      | mk a b => simp; omega

theorem sizeOf_removeKey_le (k : String) (l : List (String × Value)) :
    sizeOf (removeKey k l) ≤ sizeOf l := by
  induction l with
  | nil => simp [removeKey]
  | cons kv t ih =>
    simp only [removeKey]
    by_cases hk : kv.1 = k
    · rw [if_pos hk]
      cases kv with
      | mk a b => simp; omega
    · rw [if_neg hk]
      cases kv with
      | mk a b => simp; omega

/-! ## The value tagger (`_serialize` and the serialize half of `Serializable`)

Recursion through an `encode` hook is the one genuinely unbounded call in
the Python code (an `encode` may return an arbitrary new value, including
a fresh instance of the same class), so exactly that call site consumes a
unit of `fuel`; every other call descends into a subvalue. -/

mutual

/-- `_serialize` from the source, dispatching on the runtime kind of `x`
in the order of the Python `isinstance` chain: `OrderedDict` (entries as
two-element lists with key and value left untagged), generic dict
(values tagged, no marker), list, tuple, set (elements left untagged),
`Serializable` instance (delegates to the instance's class), type,
function, module, datetime, date, `Decimal`; anything else (primitives,
`None`) passes through unchanged. -/
def _serialize (env : Env) (fuel : Nat) (x : Value) : Except Err Value :=
  match x with
  | Value.odict prs =>
    Except.ok (Value.dict [(META_FIELD, Value.str "OrderedDict"),
      ("value", Value.list (prs.map fun kv => Value.list [kv.1, kv.2]))])
  | Value.dict entries => (serializePairs env fuel entries).map Value.dict
  | Value.list xs => (serializeList env fuel xs).map Value.list
  | Value.tuple xs =>
    (serializeList env fuel xs).map fun bs =>
      Value.dict [(META_FIELD, Value.str "tuple"), ("value", Value.list bs)]
  | Value.set xs =>
    Except.ok (Value.dict [(META_FIELD, Value.str "set"), ("value", Value.list xs)])
  | Value.entity mod nm vals =>
    match env.getClass mod nm with
    | Option.none => Except.error (Err.attrError (mod ++ ":" ++ nm))
    | some cd =>
      (serializeFields env fuel cd.name cd.fields vals).map fun o =>
        Value.dict (o ++ [(META_FIELD, Value.str (cd.module ++ ":" ++ cd.name))])
  | Value.typeRef mod nm =>
    Except.ok (Value.dict [(META_FIELD, Value.str "type"), ("value", Value.str (mod ++ ":" ++ nm))])
  | Value.funcRef mod nm =>
    Except.ok (Value.dict [(META_FIELD, Value.str "function"), ("value", Value.str (mod ++ ":" ++ nm))])
  | Value.moduleRef nm =>
    Except.ok (Value.dict [(META_FIELD, Value.str "module"), ("value", Value.str nm)])
  | Value.datetime dt =>
    Except.ok (Value.dict [(META_FIELD, Value.str "datetime"), ("value", Value.str (isoformat dt))])
  | Value.date y mo d =>
    Except.ok (Value.dict [(META_FIELD, Value.str "date"), ("value", Value.str (formatYmd y mo d))])
  | Value.decimal s =>
    Except.ok (Value.dict [(META_FIELD, Value.str "Decimal"), ("value", Value.str s)])
  | x => Except.ok x
termination_by (fuel, 3 * sizeOf x, 0)

/-- `[_serialize(xi) for xi in x]`. -/
def serializeList (env : Env) (fuel : Nat) (xs : List Value) : Except Err (List Value) :=
  match xs with
  | [] => Except.ok []
  | x :: t =>
    (_serialize env fuel x).bind fun b =>
    (serializeList env fuel t).map fun bs => b :: bs
termination_by (fuel, 3 * sizeOf xs + 1, 0)

/-- `{k: _serialize(v) for k, v in x.items()}`. -/
def serializePairs (env : Env) (fuel : Nat) (l : List (String × Value)) :
    Except Err (List (String × Value)) :=
  match l with
  | [] => Except.ok []
  | (k, v) :: t =>
    (_serialize env fuel v).bind fun b =>
    (serializePairs env fuel t).map fun bs => (k, b) :: bs
termination_by (fuel, 3 * sizeOf l + 1, 0)

/-- The per-field body of `Serializable.serialize`: first the `None`
check against the declared type (before any hook runs), then the
`encode` hook (whose declaration without a paired `decode` is a
`ValueError`), then the recursive tagging of the (possibly encoded)
value. -/
def serializeField (env : Env) (fuel : Nat) (clsName : String) (f : FieldDesc) (v : Value) :
    Except Err Value :=
  match v, f.isOptional with
  | Value.none, false => Except.error (Err.typeError (f.name ++ " is not optional"))
  | v, _ =>
    match f.encode with
    | some enc =>
      match f.decode with
      | Option.none =>
        Except.error (Err.valueError ("decode is not implemented for " ++ f.name ++ " in " ++ clsName))
      | some _ =>
        match fuel with
        | 0 => Except.error Err.outOfFuel
        | s + 1 => _serialize env s (enc v)
    | Option.none => _serialize env fuel v
termination_by (fuel, 3 * sizeOf v + 2, 0)

/-- The field loop of `Serializable.serialize`: read each declared
field's current value (`getattr`) and store its serialized form under
the field's name, in declaration order. -/
def serializeFields (env : Env) (fuel : Nat) (clsName : String) (fields : List FieldDesc)
    (vals : List (String × Value)) : Except Err (List (String × Value)) :=
  match fields with
  | [] => Except.ok []
  | f :: fs =>
    match hv : lookupKey vals f.name with
    | Option.none => Except.error (Err.attrError f.name)
    | some v =>
      have _hlt : sizeOf v < sizeOf vals := sizeOf_lookup_lt hv
      (serializeField env fuel clsName f v).bind fun b =>
      (serializeFields env fuel clsName fs vals).map fun o => (f.name, b) :: o
termination_by (fuel, 3 * sizeOf vals + 2, fields.length)

end

/-! ## The value untagger (`_deserialize` and the deserialize half of
`Serializable`)

Recursion through a field default is the genuinely unbounded call in the
Python code (a class may declare a default whose deserialization
dispatches back to the same class), so exactly that call site consumes a
unit of `fuel`; every other call descends into a subvalue of the blob. -/

/-- `x["value"].split(":")` destructured into exactly two parts, as the
Python tuple unpacking `m, c = ...` requires: succeeds iff the string
contains exactly one colon. -/
def splitColonChars (l : List Char) : Option (List Char × List Char) :=
  match l with
  | [] => Option.none
  | c :: t =>
    if c = ':' then (if t.contains ':' then Option.none else some ([], t))
    else (splitColonChars t).map fun p => (c :: p.1, p.2)

/-- String-level wrapper for `splitColonChars`. -/
def splitColon (s : String) : Option (String × String) :=
  (splitColonChars s.data).map fun p => (String.mk p.1, String.mk p.2)

mutual

/-- `_deserialize` from the source: a mapping carrying the reserved
marker key branches on the marker (`OrderedDict`, `tuple`, `set`,
`datetime`, `date`, `Decimal`, `type` / `function`, `module`, else a
fully-qualified entity identifier dispatched through the dynamic-import
collaborator to that class's own `deserialize`); a mapping without the
marker and a sequence recurse into their members; anything else is
returned unchanged.  A non-string marker reaches `.split(":")` and so
fails like Python's `AttributeError`; a marker string without exactly
one colon fails tuple unpacking (`ValueError`). -/
def _deserialize (env : Env) (fuel : Nat) (x : Value) : Except Err Value :=
  match x with
  | Value.dict entries =>
    match hm : lookupKey entries META_FIELD with
    | some (Value.str tag) =>
      if tag = "OrderedDict" then
        match hp : lookupKey entries "value" with
        | some (Value.list es) =>
          have _h1 : sizeOf es < sizeOf entries := by
            have h2 := sizeOf_lookup_lt hp
            simp only [Value.list.sizeOf_spec] at h2
            omega
          (deserializeODPairs env fuel es).map Value.odict
        | some _ => Except.error (Err.typeError "OrderedDict payload is not iterable")
        | Option.none => Except.error (Err.keyError "value")
      else if tag = "tuple" then
        match hp : lookupKey entries "value" with
        | some (Value.list es) =>
          have _h1 : sizeOf es < sizeOf entries := by
            have h2 := sizeOf_lookup_lt hp
            simp only [Value.list.sizeOf_spec] at h2
            omega
          (deserializeList env fuel es).map Value.tuple
        | some _ => Except.error (Err.typeError "tuple payload is not iterable")
        | Option.none => Except.error (Err.keyError "value")
      else if tag = "set" then
        match hp : lookupKey entries "value" with
        | some (Value.list es) =>
          have _h1 : sizeOf es < sizeOf entries := by
            have h2 := sizeOf_lookup_lt hp
            simp only [Value.list.sizeOf_spec] at h2
            omega
          (deserializeList env fuel es).map Value.set
        | some _ => Except.error (Err.typeError "set payload is not iterable")
        | Option.none => Except.error (Err.keyError "value")
      else if tag = "datetime" then
        match lookupKey entries "value" with
        | some (Value.str s) =>
          match fromisoformat s.data with
          | some dt => Except.ok (Value.datetime dt)
          | Option.none => Except.error (Err.valueError ("Invalid isoformat string: " ++ s))
        | some _ => Except.error (Err.typeError "fromisoformat: argument must be str")
        | Option.none => Except.error (Err.keyError "value")
      else if tag = "date" then
        match lookupKey entries "value" with
        | some (Value.str s) =>
          match strptimeYmd s.data with
          | some (y, mo, d) => Except.ok (Value.date y mo d)
          | Option.none => Except.error (Err.valueError ("time data does not match format: " ++ s))
        | some _ => Except.error (Err.typeError "strptime: argument must be str")
        | Option.none => Except.error (Err.keyError "value")
      else if tag = "Decimal" then
        match lookupKey entries "value" with
        | some (Value.str s) => Except.ok (Value.decimal s)
        | some (Value.int n) => Except.ok (Value.decimal (toString n))
        | some _ => Except.error (Err.typeError "conversion to Decimal is not supported")
        | Option.none => Except.error (Err.keyError "value")
      else if tag = "type" ∨ tag = "function" then
        match lookupKey entries "value" with
        | some (Value.str s) =>
          match splitColon s with
          | some (m, c) =>
            match env.getAttr m c with
            | some v => Except.ok v
            | Option.none => Except.error (Err.lookupError (m ++ ":" ++ c))
          | Option.none => Except.error (Err.valueError ("not enough values to unpack: " ++ s))
        | some _ => Except.error (Err.attrError "split")
        | Option.none => Except.error (Err.keyError "value")
      else if tag = "module" then
        match lookupKey entries "value" with
        | some (Value.str s) =>
          if env.getModule s then Except.ok (Value.moduleRef s)
          else Except.error (Err.lookupError s)
        | some _ => Except.error (Err.typeError "import_module: argument must be str")
        | Option.none => Except.error (Err.keyError "value")
      else
        match splitColon tag with
        | Option.none => Except.error (Err.valueError ("not enough values to unpack: " ++ tag))
        | some (m, c) =>
          match env.getClass m c with
          | Option.none => Except.error (Err.lookupError (m ++ ":" ++ c))
          | some cd =>
            have _h1 : sizeOf (removeKey META_FIELD entries) ≤ sizeOf entries :=
              sizeOf_removeKey_le META_FIELD entries
            (resolveFields env fuel cd.name cd.fields (removeKey META_FIELD entries)).bind
              (construct cd)
    | some _ => Except.error (Err.attrError "split")
    | Option.none => (deserializePairs env fuel entries).map Value.dict
  | Value.list xs => (deserializeList env fuel xs).map Value.list
  | x => Except.ok x
termination_by (fuel, 3 * sizeOf x, 0)

/-- `[_deserialize(xi) for xi in x]`. -/
def deserializeList (env : Env) (fuel : Nat) (xs : List Value) : Except Err (List Value) :=
  match xs with
  | [] => Except.ok []
  | x :: t =>
    (_deserialize env fuel x).bind fun v =>
    (deserializeList env fuel t).map fun vs => v :: vs
termination_by (fuel, 3 * sizeOf xs + 1, 0)

/-- `{k: _deserialize(v) for k, v in x.items()}`. -/
def deserializePairs (env : Env) (fuel : Nat) (l : List (String × Value)) :
    Except Err (List (String × Value)) :=
  match l with
  | [] => Except.ok []
  | (k, v) :: t =>
    (_deserialize env fuel v).bind fun w =>
    (deserializePairs env fuel t).map fun ws => (k, w) :: ws
termination_by (fuel, 3 * sizeOf l + 1, 0)

/-- `[(v[0], _deserialize(v[1])) for v in x["value"]]`: each entry must
be indexable with at least two positions (a list or tuple in the model);
the key is taken as is, the value is recursively untagged. -/
def deserializeODPairs (env : Env) (fuel : Nat) (es : List Value) :
    Except Err (List (Value × Value)) :=
  match es with
  | [] => Except.ok []
  | Value.list (k :: v :: _) :: t =>
    (_deserialize env fuel v).bind fun w =>
    (deserializeODPairs env fuel t).map fun ws => (k, w) :: ws
  | Value.tuple (k :: v :: _) :: t =>
    (_deserialize env fuel v).bind fun w =>
    (deserializeODPairs env fuel t).map fun ws => (k, w) :: ws
  | Value.list _ :: _ => Except.error (Err.indexError "list index out of range")
  | Value.tuple _ :: _ => Except.error (Err.indexError "tuple index out of range")
  | _ :: _ => Except.error (Err.typeError "object is not subscriptable")
termination_by (fuel, 3 * sizeOf es + 1, 0)

/-- The per-field resolution of `Serializable.deserialize`: an absent
field whose declared type permits `None` resolves to `None` outright
(skipping defaults and the `decode` hook); otherwise the field's raw
value is taken from the input, falling back to `_default_value` (the
`dataclasses.MISSING` outcome is the "deserialized with unknown value"
`ValueError`); the raw value is untagged and the `decode` hook applied. -/
def deserializeDefault (env : Env) (fuel : Nat) (d : Value) : Except Err Value :=
  match fuel with
  | 0 => Except.error Err.outOfFuel
  | s + 1 => _deserialize env s d
termination_by (fuel, 0, 0)

def resolveField (env : Env) (fuel : Nat) (clsName : String) (f : FieldDesc)
    (data : List (String × Value)) : Except Err Value :=
  match hv : lookupKey data f.name with
  | Option.none =>
    if f.isOptional then Except.ok Value.none
    else
      match _default_value f with
      | Option.none =>
        Except.error (Err.valueError
          ("deserialized with unknown value for " ++ f.name ++ " in " ++ clsName))
      | some d => (deserializeDefault env fuel d).map (applyDecode f)
  | some b =>
    have _hlt : sizeOf b < sizeOf data := sizeOf_lookup_lt hv
    (_deserialize env fuel b).map (applyDecode f)
termination_by (fuel, 3 * sizeOf data + 2, 0)

/-- The field loop of `Serializable.deserialize`, producing the keyword
mapping `o` passed to the class constructor. -/
def resolveFields (env : Env) (fuel : Nat) (clsName : String) (fields : List FieldDesc)
    (data : List (String × Value)) : Except Err (List (String × Value)) :=
  match fields with
  | [] => Except.ok []
  | f :: fs =>
    (resolveField env fuel clsName f data).bind fun v =>
    (resolveFields env fuel clsName fs data).map fun o => (f.name, v) :: o
termination_by (fuel, 3 * sizeOf data + 2, fields.length)

end

/-- `Serializable.serialize`: serialize the declared fields and add the
entity's fully-qualified type identifier under the marker key. -/
def serializeObj (env : Env) (fuel : Nat) (cd : ClassDesc) (vals : List (String × Value)) :
    Except Err Value :=
  (serializeFields env fuel cd.name cd.fields vals).map fun o =>
    Value.dict (o ++ [(META_FIELD, Value.str (cd.module ++ ":" ++ cd.name))])

/-- `Serializable.deserialize`: work on a copy of the input with the
marker key removed, resolve every declared field, and construct the
instance (re-running `__post_init__` validation). -/
def deserializeObj (env : Env) (fuel : Nat) (cd : ClassDesc) (data : List (String × Value)) :
    Except Err Value :=
  (resolveFields env fuel cd.name cd.fields (removeKey META_FIELD data)).bind (construct cd)

/-- The module-level `deserialize` alias for `_deserialize`. -/
def deserialize (env : Env) (fuel : Nat) (x : Value) : Except Err Value :=
  _deserialize env fuel x



/-! ## Step lemmas for the tagger

The serializer and untagger are defined by well-founded recursion, so the
following equations restate each branch for use in proofs. -/

@[simp] theorem _serialize_none (env : Env) (fuel : Nat) :
    _serialize env fuel Value.none = Except.ok Value.none := by
  unfold _serialize; rfl

@[simp] theorem _serialize_bool (env : Env) (fuel : Nat) (b : Bool) :
    _serialize env fuel (Value.bool b) = Except.ok (Value.bool b) := by
  unfold _serialize; rfl

@[simp] theorem _serialize_int (env : Env) (fuel : Nat) (n : Int) :
    _serialize env fuel (Value.int n) = Except.ok (Value.int n) := by
  unfold _serialize; rfl

@[simp] theorem _serialize_str (env : Env) (fuel : Nat) (s : String) :
    _serialize env fuel (Value.str s) = Except.ok (Value.str s) := by
  unfold _serialize; rfl

@[simp] theorem _serialize_noDefault (env : Env) (fuel : Nat) :
    _serialize env fuel Value.noDefault = Except.ok Value.noDefault := by
  unfold _serialize; rfl

@[simp] theorem _serialize_decimal (env : Env) (fuel : Nat) (s : String) :
    _serialize env fuel (Value.decimal s) =
      Except.ok (Value.dict [(META_FIELD, Value.str "Decimal"), ("value", Value.str s)]) := by
  unfold _serialize; rfl

@[simp] theorem _serialize_date (env : Env) (fuel : Nat) (y mo d : Nat) :
    _serialize env fuel (Value.date y mo d) =
      Except.ok (Value.dict [(META_FIELD, Value.str "date"), ("value", Value.str (formatYmd y mo d))]) := by
  unfold _serialize; rfl

@[simp] theorem _serialize_datetime (env : Env) (fuel : Nat) (dt : DatetimeV) :
    _serialize env fuel (Value.datetime dt) =
      Except.ok (Value.dict [(META_FIELD, Value.str "datetime"), ("value", Value.str (isoformat dt))]) := by
  unfold _serialize; rfl

@[simp] theorem _serialize_typeRef (env : Env) (fuel : Nat) (mod nm : String) :
    _serialize env fuel (Value.typeRef mod nm) =
      Except.ok (Value.dict [(META_FIELD, Value.str "type"), ("value", Value.str (mod ++ ":" ++ nm))]) := by
  unfold _serialize; rfl

@[simp] theorem _serialize_funcRef (env : Env) (fuel : Nat) (mod nm : String) :
    _serialize env fuel (Value.funcRef mod nm) =
      Except.ok (Value.dict [(META_FIELD, Value.str "function"), ("value", Value.str (mod ++ ":" ++ nm))]) := by
  unfold _serialize; rfl

@[simp] theorem _serialize_moduleRef (env : Env) (fuel : Nat) (nm : String) :
    _serialize env fuel (Value.moduleRef nm) =
      Except.ok (Value.dict [(META_FIELD, Value.str "module"), ("value", Value.str nm)]) := by
  unfold _serialize; rfl

@[simp] theorem _serialize_odict (env : Env) (fuel : Nat) (prs : List (Value × Value)) :
    _serialize env fuel (Value.odict prs) =
      Except.ok (Value.dict [(META_FIELD, Value.str "OrderedDict"),
        ("value", Value.list (prs.map fun kv => Value.list [kv.1, kv.2]))]) := by
  unfold _serialize; rfl

@[simp] theorem _serialize_set (env : Env) (fuel : Nat) (xs : List Value) :
    _serialize env fuel (Value.set xs) =
      Except.ok (Value.dict [(META_FIELD, Value.str "set"), ("value", Value.list xs)]) := by
  unfold _serialize; rfl

@[simp] theorem _serialize_list (env : Env) (fuel : Nat) (xs : List Value) :
    _serialize env fuel (Value.list xs) = (serializeList env fuel xs).map Value.list := by
  unfold _serialize; rfl

@[simp] theorem _serialize_tuple (env : Env) (fuel : Nat) (xs : List Value) :
    _serialize env fuel (Value.tuple xs) =
      (serializeList env fuel xs).map fun bs =>
        Value.dict [(META_FIELD, Value.str "tuple"), ("value", Value.list bs)] := by
  unfold _serialize; rfl

@[simp] theorem _serialize_dict (env : Env) (fuel : Nat) (entries : List (String × Value)) :
    _serialize env fuel (Value.dict entries) = (serializePairs env fuel entries).map Value.dict := by
  unfold _serialize; rfl

theorem _serialize_entity_some {env : Env} (fuel : Nat) {mod nm : String} {cd : ClassDesc}
    (vals : List (String × Value)) (h : env.getClass mod nm = some cd) :
    _serialize env fuel (Value.entity mod nm vals) = serializeObj env fuel cd vals := by
  unfold _serialize serializeObj
  rw [h]

theorem _serialize_entity_missing {env : Env} (fuel : Nat) {mod nm : String}
    (vals : List (String × Value)) (h : env.getClass mod nm = Option.none) :
    _serialize env fuel (Value.entity mod nm vals) =
      Except.error (Err.attrError (mod ++ ":" ++ nm)) := by
  unfold _serialize
  rw [h]

@[simp] theorem serializeList_nil (env : Env) (fuel : Nat) :
    serializeList env fuel [] = Except.ok [] := by
  unfold serializeList; rfl

@[simp] theorem serializeList_cons (env : Env) (fuel : Nat) (x : Value) (t : List Value) :
    serializeList env fuel (x :: t) =
      (_serialize env fuel x).bind fun b =>
        (serializeList env fuel t).map fun bs => b :: bs := by
  conv_lhs => unfold serializeList

@[simp] theorem serializePairs_nil (env : Env) (fuel : Nat) :
    serializePairs env fuel [] = Except.ok [] := by
  unfold serializePairs; rfl

@[simp] theorem serializePairs_cons (env : Env) (fuel : Nat) (k : String) (v : Value)
    (t : List (String × Value)) :
    serializePairs env fuel ((k, v) :: t) =
      (_serialize env fuel v).bind fun b =>
        (serializePairs env fuel t).map fun bs => (k, b) :: bs := by
  conv_lhs => unfold serializePairs

@[simp] theorem serializeFields_nil (env : Env) (fuel : Nat) (clsName : String)
    (vals : List (String × Value)) :
    serializeFields env fuel clsName [] vals = Except.ok [] := by
  unfold serializeFields; rfl

theorem serializeFields_cons_found (env : Env) (fuel : Nat) (clsName : String)
    {f : FieldDesc} (fs : List FieldDesc) {vals : List (String × Value)} {v : Value}
    (hv : lookupKey vals f.name = some v) :
    serializeFields env fuel clsName (f :: fs) vals =
      (serializeField env fuel clsName f v).bind fun b =>
        (serializeFields env fuel clsName fs vals).map fun o => (f.name, b) :: o := by
  conv_lhs => unfold serializeFields
  split <;> simp_all

theorem serializeFields_cons_missing (env : Env) (fuel : Nat) (clsName : String)
    {f : FieldDesc} (fs : List FieldDesc) {vals : List (String × Value)}
    (hv : lookupKey vals f.name = Option.none) :
    serializeFields env fuel clsName (f :: fs) vals = Except.error (Err.attrError f.name) := by
  conv_lhs => unfold serializeFields
  split <;> simp_all

theorem serializeField_none_notOptional (env : Env) (fuel : Nat) (clsName : String)
    {f : FieldDesc} (h : f.isOptional = false) :
    serializeField env fuel clsName f Value.none =
      Except.error (Err.typeError (f.name ++ " is not optional")) := by
  unfold serializeField
  rw [h]

theorem serializeField_noEncode (env : Env) (fuel : Nat) (clsName : String)
    {f : FieldDesc} {v : Value} (henc : f.encode = Option.none)
    (h : v = Value.none → f.isOptional = true) :
    serializeField env fuel clsName f v = _serialize env fuel v := by
  obtain ⟨nm, opt, df, dff, e, de, co⟩ := f
  have he : e = Option.none := henc
  subst he
  cases v
  case none =>
    have h2 : opt = true := h rfl
    subst h2
    unfold serializeField
    rfl
  all_goals (unfold serializeField; rfl)

theorem serializeField_encode_noDecode (env : Env) (fuel : Nat) (clsName : String)
    {f : FieldDesc} {v : Value} {enc : Value → Value} (henc : f.encode = some enc)
    (hdec : f.decode = Option.none)
    (h : v = Value.none → f.isOptional = true) :
    serializeField env fuel clsName f v =
      Except.error (Err.valueError ("decode is not implemented for " ++ f.name ++ " in " ++ clsName)) := by
  obtain ⟨nm, opt, df, dff, e, de, co⟩ := f
  have he : e = some enc := henc
  subst he
  have hd : de = Option.none := hdec
  subst hd
  cases v
  case none =>
    have h2 : opt = true := h rfl
    subst h2
    unfold serializeField
    rfl
  all_goals (unfold serializeField; rfl)

theorem serializeField_encode_decode (env : Env) (s : Nat) (clsName : String)
    {f : FieldDesc} {v : Value} {enc dec : Value → Value} (henc : f.encode = some enc)
    (hdec : f.decode = some dec)
    (h : v = Value.none → f.isOptional = true) :
    serializeField env (s + 1) clsName f v = _serialize env s (enc v) := by
  obtain ⟨nm, opt, df, dff, e, de, co⟩ := f
  have he : e = some enc := henc
  subst he
  have hd : de = some dec := hdec
  subst hd
  cases v
  case none =>
    have h2 : opt = true := h rfl
    subst h2
    unfold serializeField
    rfl
  all_goals (unfold serializeField; rfl)


@[simp] theorem _deserialize_none (env : Env) (fuel : Nat) :
    _deserialize env fuel Value.none = Except.ok Value.none := by
  unfold _deserialize; rfl

@[simp] theorem _deserialize_bool (env : Env) (fuel : Nat) (b : Bool) :
    _deserialize env fuel (Value.bool b) = Except.ok (Value.bool b) := by
  unfold _deserialize; rfl

@[simp] theorem _deserialize_int (env : Env) (fuel : Nat) (n : Int) :
    _deserialize env fuel (Value.int n) = Except.ok (Value.int n) := by
  unfold _deserialize; rfl

@[simp] theorem _deserialize_str (env : Env) (fuel : Nat) (s : String) :
    _deserialize env fuel (Value.str s) = Except.ok (Value.str s) := by
  unfold _deserialize; rfl

@[simp] theorem _deserialize_tuple_val (env : Env) (fuel : Nat) (xs : List Value) :
    _deserialize env fuel (Value.tuple xs) = Except.ok (Value.tuple xs) := by
  unfold _deserialize; rfl

@[simp] theorem _deserialize_set_val (env : Env) (fuel : Nat) (xs : List Value) :
    _deserialize env fuel (Value.set xs) = Except.ok (Value.set xs) := by
  unfold _deserialize; rfl

@[simp] theorem _deserialize_odict_val (env : Env) (fuel : Nat) (prs : List (Value × Value)) :
    _deserialize env fuel (Value.odict prs) = Except.ok (Value.odict prs) := by
  unfold _deserialize; rfl

@[simp] theorem _deserialize_date_val (env : Env) (fuel : Nat) (y mo d : Nat) :
    _deserialize env fuel (Value.date y mo d) = Except.ok (Value.date y mo d) := by
  unfold _deserialize; rfl

@[simp] theorem _deserialize_datetime_val (env : Env) (fuel : Nat) (dt : DatetimeV) :
    _deserialize env fuel (Value.datetime dt) = Except.ok (Value.datetime dt) := by
  unfold _deserialize; rfl

@[simp] theorem _deserialize_decimal_val (env : Env) (fuel : Nat) (s : String) :
    _deserialize env fuel (Value.decimal s) = Except.ok (Value.decimal s) := by
  unfold _deserialize; rfl

@[simp] theorem _deserialize_typeRef_val (env : Env) (fuel : Nat) (mod nm : String) :
    _deserialize env fuel (Value.typeRef mod nm) = Except.ok (Value.typeRef mod nm) := by
  unfold _deserialize; rfl

@[simp] theorem _deserialize_funcRef_val (env : Env) (fuel : Nat) (mod nm : String) :
    _deserialize env fuel (Value.funcRef mod nm) = Except.ok (Value.funcRef mod nm) := by
  unfold _deserialize; rfl

@[simp] theorem _deserialize_moduleRef_val (env : Env) (fuel : Nat) (nm : String) :
    _deserialize env fuel (Value.moduleRef nm) = Except.ok (Value.moduleRef nm) := by
  unfold _deserialize; rfl

@[simp] theorem _deserialize_entity_val (env : Env) (fuel : Nat) (mod nm : String)
    (vals : List (String × Value)) :
    _deserialize env fuel (Value.entity mod nm vals) = Except.ok (Value.entity mod nm vals) := by
  unfold _deserialize; rfl

@[simp] theorem _deserialize_noDefault (env : Env) (fuel : Nat) :
    _deserialize env fuel Value.noDefault = Except.ok Value.noDefault := by
  unfold _deserialize; rfl

@[simp] theorem _deserialize_list (env : Env) (fuel : Nat) (xs : List Value) :
    _deserialize env fuel (Value.list xs) = (deserializeList env fuel xs).map Value.list := by
  unfold _deserialize; rfl

theorem _deserialize_dict_nometa {env : Env} (fuel : Nat) {entries : List (String × Value)}
    (hm : lookupKey entries META_FIELD = Option.none) :
    _deserialize env fuel (Value.dict entries) = (deserializePairs env fuel entries).map Value.dict := by
  conv_lhs => unfold _deserialize
  split <;> simp_all

theorem _deserialize_tag_odict {env : Env} (fuel : Nat) {entries : List (String × Value)}
    {es : List Value}
    (hm : lookupKey entries META_FIELD = some (Value.str "OrderedDict"))
    (hp : lookupKey entries "value" = some (Value.list es)) :
    _deserialize env fuel (Value.dict entries) = (deserializeODPairs env fuel es).map Value.odict := by
  unfold _deserialize
  rw [hm]
  simp
  rw [hp]

theorem _deserialize_tag_tuple {env : Env} (fuel : Nat) {entries : List (String × Value)}
    {es : List Value}
    (hm : lookupKey entries META_FIELD = some (Value.str "tuple"))
    (hp : lookupKey entries "value" = some (Value.list es)) :
    _deserialize env fuel (Value.dict entries) = (deserializeList env fuel es).map Value.tuple := by
  unfold _deserialize
  rw [hm]
  simp
  rw [hp]

theorem _deserialize_tag_set {env : Env} (fuel : Nat) {entries : List (String × Value)}
    {es : List Value}
    (hm : lookupKey entries META_FIELD = some (Value.str "set"))
    (hp : lookupKey entries "value" = some (Value.list es)) :
    _deserialize env fuel (Value.dict entries) = (deserializeList env fuel es).map Value.set := by
  unfold _deserialize
  rw [hm]
  simp
  rw [hp]

theorem _deserialize_tag_datetime {env : Env} (fuel : Nat) {entries : List (String × Value)}
    {s : String} {dt : DatetimeV}
    (hm : lookupKey entries META_FIELD = some (Value.str "datetime"))
    (hp : lookupKey entries "value" = some (Value.str s))
    (hparse : fromisoformat s.data = some dt) :
    _deserialize env fuel (Value.dict entries) = Except.ok (Value.datetime dt) := by
  unfold _deserialize
  rw [hm]
  simp
  rw [hp]
  simp [hparse]

theorem _deserialize_tag_date {env : Env} (fuel : Nat) {entries : List (String × Value)}
    {s : String} {y mo d : Nat}
    (hm : lookupKey entries META_FIELD = some (Value.str "date"))
    (hp : lookupKey entries "value" = some (Value.str s))
    (hparse : strptimeYmd s.data = some (y, mo, d)) :
    _deserialize env fuel (Value.dict entries) = Except.ok (Value.date y mo d) := by
  unfold _deserialize
  rw [hm]
  simp
  rw [hp]
  simp [hparse]

theorem _deserialize_tag_decimal {env : Env} (fuel : Nat) {entries : List (String × Value)}
    {s : String}
    (hm : lookupKey entries META_FIELD = some (Value.str "Decimal"))
    (hp : lookupKey entries "value" = some (Value.str s)) :
    _deserialize env fuel (Value.dict entries) = Except.ok (Value.decimal s) := by
  unfold _deserialize
  rw [hm]
  simp
  rw [hp]

theorem _deserialize_tag_typefn_found {env : Env} (fuel : Nat) {entries : List (String × Value)}
    {tag : String} {s : String} {m c : String} {v : Value}
    (htag : tag = "type" ∨ tag = "function")
    (hm : lookupKey entries META_FIELD = some (Value.str tag))
    (hp : lookupKey entries "value" = some (Value.str s))
    (hsplit : splitColon s = some (m, c))
    (hattr : env.getAttr m c = some v) :
    _deserialize env fuel (Value.dict entries) = Except.ok v := by
  unfold _deserialize
  rw [hm]
  cases htag with
  | inl h =>
    subst h
    simp
    rw [hp]
    simp [hsplit, hattr]
  | inr h =>
    subst h
    simp
    rw [hp]
    simp [hsplit, hattr]

theorem _deserialize_tag_typefn_missing {env : Env} (fuel : Nat) {entries : List (String × Value)}
    {tag : String} {s : String} {m c : String}
    (htag : tag = "type" ∨ tag = "function")
    (hm : lookupKey entries META_FIELD = some (Value.str tag))
    (hp : lookupKey entries "value" = some (Value.str s))
    (hsplit : splitColon s = some (m, c))
    (hattr : env.getAttr m c = Option.none) :
    _deserialize env fuel (Value.dict entries) = Except.error (Err.lookupError (m ++ ":" ++ c)) := by
  unfold _deserialize
  rw [hm]
  cases htag with
  | inl h =>
    subst h
    simp
    rw [hp]
    simp [hsplit, hattr]
  | inr h =>
    subst h
    simp
    rw [hp]
    simp [hsplit, hattr]

theorem _deserialize_tag_module_found {env : Env} (fuel : Nat) {entries : List (String × Value)}
    {s : String}
    (hm : lookupKey entries META_FIELD = some (Value.str "module"))
    (hp : lookupKey entries "value" = some (Value.str s))
    (hmod : env.getModule s = true) :
    _deserialize env fuel (Value.dict entries) = Except.ok (Value.moduleRef s) := by
  unfold _deserialize
  rw [hm]
  simp
  rw [hp]
  simp [hmod]

theorem _deserialize_tag_module_missing {env : Env} (fuel : Nat) {entries : List (String × Value)}
    {s : String}
    (hm : lookupKey entries META_FIELD = some (Value.str "module"))
    (hp : lookupKey entries "value" = some (Value.str s))
    (hmod : env.getModule s = false) :
    _deserialize env fuel (Value.dict entries) = Except.error (Err.lookupError s) := by
  unfold _deserialize
  rw [hm]
  simp
  rw [hp]
  simp [hmod]

/-- A marker string that is none of the nine built-in kind tags, and so is
treated as a fully-qualified entity type identifier. -/
def notBuiltinTag (tag : String) : Prop :=
  tag ≠ "OrderedDict" ∧ tag ≠ "tuple" ∧ tag ≠ "set" ∧ tag ≠ "datetime" ∧
  tag ≠ "date" ∧ tag ≠ "Decimal" ∧ tag ≠ "type" ∧ tag ≠ "function" ∧ tag ≠ "module"

theorem _deserialize_entity_dispatch {env : Env} (fuel : Nat) {entries : List (String × Value)}
    {tag : String} {m c : String} {cd : ClassDesc}
    (hm : lookupKey entries META_FIELD = some (Value.str tag))
    (hnb : notBuiltinTag tag)
    (hsplit : splitColon tag = some (m, c))
    (hcls : env.getClass m c = some cd) :
    _deserialize env fuel (Value.dict entries) = deserializeObj env fuel cd entries := by
  obtain ⟨h1, h2, h3, h4, h5, h6, h7, h8, h9⟩ := hnb
  unfold _deserialize deserializeObj
  rw [hm]
  simp [h1, h2, h3, h4, h5, h6, h7, h8, h9, hsplit, hcls]

theorem _deserialize_entity_unresolved {env : Env} (fuel : Nat) {entries : List (String × Value)}
    {tag : String} {m c : String}
    (hm : lookupKey entries META_FIELD = some (Value.str tag))
    (hnb : notBuiltinTag tag)
    (hsplit : splitColon tag = some (m, c))
    (hcls : env.getClass m c = Option.none) :
    _deserialize env fuel (Value.dict entries) = Except.error (Err.lookupError (m ++ ":" ++ c)) := by
  obtain ⟨h1, h2, h3, h4, h5, h6, h7, h8, h9⟩ := hnb
  unfold _deserialize
  rw [hm]
  simp [h1, h2, h3, h4, h5, h6, h7, h8, h9, hsplit, hcls]

@[simp] theorem deserializeList_nil (env : Env) (fuel : Nat) :
    deserializeList env fuel [] = Except.ok [] := by
  unfold deserializeList; rfl

@[simp] theorem deserializeList_cons (env : Env) (fuel : Nat) (x : Value) (t : List Value) :
    deserializeList env fuel (x :: t) =
      (_deserialize env fuel x).bind fun v =>
        (deserializeList env fuel t).map fun vs => v :: vs := by
  conv_lhs => unfold deserializeList

@[simp] theorem deserializePairs_nil (env : Env) (fuel : Nat) :
    deserializePairs env fuel [] = Except.ok [] := by
  unfold deserializePairs; rfl

@[simp] theorem deserializePairs_cons (env : Env) (fuel : Nat) (k : String) (v : Value)
    (t : List (String × Value)) :
    deserializePairs env fuel ((k, v) :: t) =
      (_deserialize env fuel v).bind fun w =>
        (deserializePairs env fuel t).map fun ws => (k, w) :: ws := by
  conv_lhs => unfold deserializePairs

@[simp] theorem deserializeODPairs_nil (env : Env) (fuel : Nat) :
    deserializeODPairs env fuel [] = Except.ok [] := by
  unfold deserializeODPairs; rfl

@[simp] theorem deserializeODPairs_cons_list (env : Env) (fuel : Nat) (k v : Value)
    (rest : List Value) (t : List Value) :
    deserializeODPairs env fuel (Value.list (k :: v :: rest) :: t) =
      (_deserialize env fuel v).bind fun w =>
        (deserializeODPairs env fuel t).map fun ws => (k, w) :: ws := by
  conv_lhs => unfold deserializeODPairs

set_option maxHeartbeats 1600000 in
theorem resolveField_present {env : Env} (fuel : Nat) (clsName : String) {f : FieldDesc}
    {data : List (String × Value)} {b : Value}
    (hv : lookupKey data f.name = some b) :
    resolveField env fuel clsName f data = (_deserialize env fuel b).map (applyDecode f) := by
  conv_lhs => rw [resolveField.eq_def]
  split
  · rename_i heq
    rw [hv] at heq
    exact Option.noConfusion heq
  · rename_i b2 heq
    rw [hv] at heq
    injection heq with heq
    subst heq
    rfl

set_option maxHeartbeats 1600000 in
theorem resolveField_absent_optional {env : Env} (fuel : Nat) (clsName : String) {f : FieldDesc}
    {data : List (String × Value)}
    (hv : lookupKey data f.name = Option.none) (hopt : f.isOptional = true) :
    resolveField env fuel clsName f data = Except.ok Value.none := by
  conv_lhs => rw [resolveField.eq_def]
  split
  · simp only [hopt, if_true]
  · rename_i b2 heq
    rw [hv] at heq
    exact Option.noConfusion heq

set_option maxHeartbeats 1600000 in
theorem resolveField_absent_default {env : Env} (s : Nat) (clsName : String) {f : FieldDesc}
    {data : List (String × Value)} {d : Value}
    (hv : lookupKey data f.name = Option.none) (hopt : f.isOptional = false)
    (hd : _default_value f = some d) :
    resolveField env (s + 1) clsName f data = (_deserialize env s d).map (applyDecode f) := by
  have hdd : deserializeDefault env (s + 1) d = _deserialize env s d := by
    unfold deserializeDefault
    rfl
  conv_lhs => rw [resolveField.eq_def]
  split
  · rw [hopt, hd]
    simp [hdd]
  · rename_i b2 heq
    rw [hv] at heq
    exact Option.noConfusion heq

set_option maxHeartbeats 1600000 in
theorem resolveField_absent_missing {env : Env} (fuel : Nat) (clsName : String) {f : FieldDesc}
    {data : List (String × Value)}
    (hv : lookupKey data f.name = Option.none) (hopt : f.isOptional = false)
    (hd : _default_value f = Option.none) :
    resolveField env fuel clsName f data =
      Except.error (Err.valueError
        ("deserialized with unknown value for " ++ f.name ++ " in " ++ clsName)) := by
  conv_lhs => rw [resolveField.eq_def]
  split
  · rw [hopt, hd]
    simp
  · rename_i b2 heq
    rw [hv] at heq
    exact Option.noConfusion heq

set_option maxHeartbeats 1600000 in
@[simp] theorem resolveFields_nil (env : Env) (fuel : Nat) (clsName : String)
    (data : List (String × Value)) :
    resolveFields env fuel clsName [] data = Except.ok [] := by
  unfold resolveFields; rfl

set_option maxHeartbeats 1600000 in
@[simp] theorem resolveFields_cons (env : Env) (fuel : Nat) (clsName : String)
    (f : FieldDesc) (fs : List FieldDesc) (data : List (String × Value)) :
    resolveFields env fuel clsName (f :: fs) data =
      (resolveField env fuel clsName f data).bind fun v =>
        (resolveFields env fuel clsName fs data).map fun o => (f.name, v) :: o := by
  conv_lhs => unfold resolveFields


/-! ## Helper lemmas: colon splitting and association lists -/

theorem splitColonChars_append {m n : List Char} (hm : ':' ∉ m) (hn : ':' ∉ n) :
    splitColonChars (m ++ ':' :: n) = some (m, n) := by
  induction m with
  | nil =>
    rw [List.nil_append]
    unfold splitColonChars
    rw [if_pos rfl, if_neg]
    · simp only [List.contains, List.elem_eq_mem, decide_eq_true_eq]
      exact hn
  | cons c t ih =>
    have hc : c ≠ ':' := fun h => hm (h ▸ List.mem_cons_self c t)
    have ht : ':' ∉ t := fun h => hm (List.mem_cons_of_mem c h)
    rw [List.cons_append]
    unfold splitColonChars
    rw [if_neg hc]
    rw [ih ht]
    rfl

theorem splitColon_append {m n : String} (hm : ':' ∉ m.data) (hn : ':' ∉ n.data) :
    splitColon (m ++ ":" ++ n) = some (m, n) := by
  have hdata : (m ++ ":" ++ n).data = m.data ++ ':' :: n.data := by
    simp [String.data_append]
  unfold splitColon
  rw [hdata, splitColonChars_append hm hn]
  rfl

theorem colon_mem_append (m n : String) : ':' ∈ (m ++ ":" ++ n).data := by
  simp [String.data_append]

theorem notBuiltinTag_of_colon {tag : String} (h : ':' ∈ tag.data) : notBuiltinTag tag := by
  refine ⟨?_, ?_, ?_, ?_, ?_, ?_, ?_, ?_, ?_⟩ <;> (intro heq; subst heq; revert h; decide)

theorem lookupKey_eq_none {l : List (String × Value)} {k : String}
    (h : ∀ kv ∈ l, kv.1 ≠ k) : lookupKey l k = Option.none := by
  induction l with
  | nil => rfl
  | cons kv t ih =>
    simp only [lookupKey, if_neg (h kv (List.mem_cons_self kv t))]
    exact ih fun x hx => h x (List.mem_cons_of_mem kv hx)

theorem lookupKey_append_right {l l2 : List (String × Value)} {k : String}
    (h : ∀ kv ∈ l, kv.1 ≠ k) : lookupKey (l ++ l2) k = lookupKey l2 k := by
  induction l with
  | nil => rfl
  | cons kv t ih =>
    simp only [List.cons_append, lookupKey, if_neg (h kv (List.mem_cons_self kv t))]
    exact ih fun x hx => h x (List.mem_cons_of_mem kv hx)

theorem lookupKey_nodup_mem {l : List (String × Value)} {k : String} {v : Value}
    (hnd : (l.map Prod.fst).Nodup) (hmem : (k, v) ∈ l) : lookupKey l k = some v := by
  induction l with
  | nil => cases hmem
  | cons kv t ih =>
    rcases List.mem_cons.mp hmem with heq | hmem2
    · subst heq
      simp [lookupKey]
    · have hk : kv.1 ≠ k := by
        intro hk
        have : k ∈ t.map Prod.fst := List.mem_map.mpr ⟨(k, v), hmem2, rfl⟩
        rw [List.map_cons, List.nodup_cons] at hnd
        exact hnd.1 (hk ▸ this)
      rw [List.map_cons, List.nodup_cons] at hnd
      simp only [lookupKey, if_neg hk]
      exact ih hnd.2 hmem2

theorem removeKey_of_none {l : List (String × Value)} {k : String}
    (h : ∀ kv ∈ l, kv.1 ≠ k) : removeKey k l = l := by
  induction l with
  | nil => rfl
  | cons kv t ih =>
    simp only [removeKey, if_neg (h kv (List.mem_cons_self kv t))]
    rw [ih fun x hx => h x (List.mem_cons_of_mem kv hx)]

theorem removeKey_append (k : String) (a b : List (String × Value)) :
    removeKey k (a ++ b) = removeKey k a ++ removeKey k b := by
  induction a with
  | nil => rfl
  | cons kv t ih =>
    simp only [List.cons_append, removeKey, List.append_eq]
    by_cases hk : kv.1 = k
    · rw [if_pos hk, if_pos hk, ih]
    · rw [if_neg hk, if_neg hk, List.cons_append, ih]

/-! ## Values on which the untagger is the identity -/

/-- Values that `_deserialize` maps to themselves: everything except a
mapping carrying the marker key at a position the untagger recurses
into (inside lists and dict values).  Tuples, sets, `OrderedDict`s and
all non-container kinds fall into the untagger's pass-through arm. -/
inductive Untouched : Value → Prop where
  | none_ : Untouched Value.none
  | bool (b : Bool) : Untouched (Value.bool b)
  | int (n : Int) : Untouched (Value.int n)
  | str (s : String) : Untouched (Value.str s)
  | tuple (xs : List Value) : Untouched (Value.tuple xs)
  | set (xs : List Value) : Untouched (Value.set xs)
  | odict (prs : List (Value × Value)) : Untouched (Value.odict prs)
  | date (y m d : Nat) : Untouched (Value.date y m d)
  | datetime (dt : DatetimeV) : Untouched (Value.datetime dt)
  | decimal (s : String) : Untouched (Value.decimal s)
  | typeRef (mod nm : String) : Untouched (Value.typeRef mod nm)
  | funcRef (mod nm : String) : Untouched (Value.funcRef mod nm)
  | moduleRef (nm : String) : Untouched (Value.moduleRef nm)
  | entity (mod nm : String) (vals : List (String × Value)) : Untouched (Value.entity mod nm vals)
  | noDefault : Untouched Value.noDefault
  | list (xs : List Value) : (∀ x ∈ xs, Untouched x) → Untouched (Value.list xs)
  | dict (l : List (String × Value)) : (∀ kv ∈ l, kv.1 ≠ META_FIELD) →
      (∀ kv ∈ l, Untouched kv.2) → Untouched (Value.dict l)

theorem deserializeList_ok {env : Env} {fuel : Nat} {xs : List Value}
    (h : ∀ x ∈ xs, _deserialize env fuel x = Except.ok x) :
    deserializeList env fuel xs = Except.ok xs := by
  induction xs with
  | nil => simp
  | cons x t ih =>
    rw [deserializeList_cons, h x (List.mem_cons_self x t),
      ih fun y hy => h y (List.mem_cons_of_mem x hy)]
    rfl

theorem deserializePairs_ok {env : Env} {fuel : Nat} {l : List (String × Value)}
    (h : ∀ kv ∈ l, _deserialize env fuel kv.2 = Except.ok kv.2) :
    deserializePairs env fuel l = Except.ok l := by
  induction l with
  | nil => simp
  | cons kv t ih =>
    obtain ⟨k, v⟩ := kv
    rw [deserializePairs_cons, h (k, v) (List.mem_cons_self (k, v) t),
      ih fun y hy => h y (List.mem_cons_of_mem (k, v) hy)]
    rfl

theorem untouched_deserialize {env : Env} {fuel : Nat} :
    ∀ {v : Value}, Untouched v → _deserialize env fuel v = Except.ok v := by
  intro v h
  induction h with
  | none_ => simp
  | bool b => simp
  | int n => simp
  | str s => simp
  | tuple xs => simp
  | set xs => simp
  | odict prs => simp
  | date y m d => simp
  | datetime dt => simp
  | decimal s => simp
  | typeRef mod nm => simp
  | funcRef mod nm => simp
  | moduleRef nm => simp
  | entity mod nm vals => simp
  | noDefault => simp
  | list xs hxs ih =>
    rw [_deserialize_list, deserializeList_ok ih]
    rfl
  | dict l hmeta huv ih =>
    rw [_deserialize_dict_nometa fuel (lookupKey_eq_none hmeta),
      deserializePairs_ok fun kv hkv => ih kv hkv]
    rfl

/-- Primitive (JSON-scalar) runtime values. -/
def IsPrim : Value → Prop
  | Value.none => True
  | Value.bool _ => True
  | Value.int _ => True
  | Value.str _ => True
  | _ => False

theorem untouched_of_prim {v : Value} (h : IsPrim v) : Untouched v := by
  cases v <;> first
    | exact Untouched.none_
    | exact Untouched.bool _
    | exact Untouched.int _
    | exact Untouched.str _
    | cases h

/-! ## JSON-safety of blobs

`json.dumps` accepts exactly `None`, booleans, numbers, strings, lists
of safe values, and string-keyed dicts of safe values; any other object
(a raw `date`, `Decimal`, entity instance, set, tuple left in a blob)
makes the surrounding JSON text encoding fail. -/

mutual

def jsonSafe (v : Value) : Bool :=
  match v with
  | Value.none => true
  | Value.bool _ => true
  | Value.int _ => true
  | Value.str _ => true
  | Value.list xs => jsonSafeList xs
  | Value.dict l => jsonSafePairs l
  | _ => false
termination_by sizeOf v

def jsonSafeList (xs : List Value) : Bool :=
  match xs with
  | [] => true
  | x :: t => jsonSafe x && jsonSafeList t
termination_by sizeOf xs

def jsonSafePairs (l : List (String × Value)) : Bool :=
  match l with
  | [] => true
  | (_, v) :: t => jsonSafe v && jsonSafePairs t
termination_by sizeOf l

end

@[simp] theorem jsonSafe_none : jsonSafe Value.none = true := by unfold jsonSafe; rfl

@[simp] theorem jsonSafe_bool (b : Bool) : jsonSafe (Value.bool b) = true := by
  unfold jsonSafe; rfl

@[simp] theorem jsonSafe_int (n : Int) : jsonSafe (Value.int n) = true := by
  unfold jsonSafe; rfl

@[simp] theorem jsonSafe_str (s : String) : jsonSafe (Value.str s) = true := by
  unfold jsonSafe; rfl

@[simp] theorem jsonSafe_date (y m d : Nat) : jsonSafe (Value.date y m d) = false := by
  unfold jsonSafe; rfl

@[simp] theorem jsonSafe_list (xs : List Value) : jsonSafe (Value.list xs) = jsonSafeList xs := by
  unfold jsonSafe; rfl

@[simp] theorem jsonSafe_dict (l : List (String × Value)) :
    jsonSafe (Value.dict l) = jsonSafePairs l := by
  unfold jsonSafe; rfl

@[simp] theorem jsonSafeList_nil : jsonSafeList [] = true := by unfold jsonSafeList; rfl

@[simp] theorem jsonSafeList_cons (x : Value) (t : List Value) :
    jsonSafeList (x :: t) = (jsonSafe x && jsonSafeList t) := by
  conv_lhs => unfold jsonSafeList

@[simp] theorem jsonSafePairs_nil : jsonSafePairs [] = true := by unfold jsonSafePairs; rfl

@[simp] theorem jsonSafePairs_cons (k : String) (v : Value) (t : List (String × Value)) :
    jsonSafePairs ((k, v) :: t) = (jsonSafe v && jsonSafePairs t) := by
  conv_lhs => unfold jsonSafePairs


/-! ## Zip helper lemmas -/

theorem zip_mem_left {α β : Type} : ∀ {l1 : List α} {l2 : List β} {p : α × β},
    p ∈ List.zip l1 l2 → p.1 ∈ l1 := by
  intro l1
  induction l1 with
  | nil => intro l2 p hp; simp [List.zip] at hp
  | cons a t ih =>
    intro l2 p hp
    cases l2 with
    | nil => simp [List.zip] at hp
    | cons b t2 =>
      rw [List.zip_cons_cons] at hp
      rcases List.mem_cons.mp hp with rfl | hp2
      · exact List.mem_cons_self a t
      · exact List.mem_cons_of_mem a (ih hp2)

theorem zip_mem_right {α β : Type} : ∀ {l1 : List α} {l2 : List β} {p : α × β},
    p ∈ List.zip l1 l2 → p.2 ∈ l2 := by
  intro l1
  induction l1 with
  | nil => intro l2 p hp; simp [List.zip] at hp
  | cons a t ih =>
    intro l2 p hp
    cases l2 with
    | nil => simp [List.zip] at hp
    | cons b t2 =>
      rw [List.zip_cons_cons] at hp
      rcases List.mem_cons.mp hp with rfl | hp2
      · exact List.mem_cons_self b t2
      · exact List.mem_cons_of_mem b (ih hp2)

theorem exists_zip_of_mem {α β : Type} : ∀ {l1 : List α} {l2 : List β} {a : α},
    a ∈ l1 → l1.length = l2.length → ∃ b, (a, b) ∈ List.zip l1 l2 := by
  intro l1
  induction l1 with
  | nil => intro l2 a ha; cases ha
  | cons x t ih =>
    intro l2 a ha hlen
    cases l2 with
    | nil => simp at hlen
    | cons y t2 =>
      rw [List.zip_cons_cons]
      rcases List.mem_cons.mp ha with rfl | ha2
      · exact ⟨y, List.mem_cons_self (a, y) _⟩
      · obtain ⟨b, hb⟩ := ih ha2 (by simpa using hlen)
        exact ⟨b, List.mem_cons_of_mem (x, y) hb⟩

theorem lookup_zip_positional : ∀ (fields : List FieldDesc) (vals : List (String × Value)),
    vals.map Prod.fst = fields.map FieldDesc.name →
    (fields.map FieldDesc.name).Nodup →
    ∀ p ∈ List.zip fields vals, p.2.1 = p.1.name ∧ lookupKey vals p.1.name = some p.2.2 := by
  intro fields
  induction fields with
  | nil => intro vals _ _ p hp; simp [List.zip] at hp
  | cons f fs ih =>
    intro vals hkeys hnd p hp
    cases vals with
    | nil => simp at hkeys
    | cons kv kvs =>
      simp only [List.map_cons, List.cons.injEq] at hkeys
      obtain ⟨hk1, hkt⟩ := hkeys
      rw [List.map_cons, List.nodup_cons] at hnd
      rw [List.zip_cons_cons] at hp
      rcases List.mem_cons.mp hp with rfl | hp2
      · refine ⟨hk1, ?_⟩
        simp [lookupKey, hk1]
      · have htail := ih kvs hkt hnd.2 p hp2
        refine ⟨htail.1, ?_⟩
        have hpf : p.1 ∈ fs := zip_mem_left hp2
        have hne : kv.1 ≠ p.1.name := by
          intro hkeq
          apply hnd.1
          rw [← hk1, hkeq]
          exact List.mem_map.mpr ⟨p.1, hpf, rfl⟩
        simp only [lookupKey, if_neg hne]
        exact htail.2

/-! ## The class of values the round-trip theorem covers

`Good env v` captures the built-in kinds of the library together with
the side conditions under which a value can survive
`_deserialize ∘ _serialize` unchanged: dates and datetimes are valid
calendar values, type / function / module references resolve coherently
in the dynamic-import environment, generic dict keys avoid the reserved
marker key, set members are JSON primitives, `OrderedDict` values are
untagger fixed points, and entity instances belong to a registered
class without custom hooks whose declared contracts and optionality
match the stored field values. -/
inductive Good (env : Env) : Value → Prop where
  | none_ : Good env Value.none
  | bool (b : Bool) : Good env (Value.bool b)
  | int (n : Int) : Good env (Value.int n)
  | str (s : String) : Good env (Value.str s)
  | list (xs : List Value) : (∀ x ∈ xs, Good env x) → Good env (Value.list xs)
  | tuple (xs : List Value) : (∀ x ∈ xs, Good env x) → Good env (Value.tuple xs)
  | set (xs : List Value) : (∀ x ∈ xs, IsPrim x) → Good env (Value.set xs)
  | dict (l : List (String × Value)) : (∀ kv ∈ l, kv.1 ≠ META_FIELD) →
      (∀ kv ∈ l, Good env kv.2) → Good env (Value.dict l)
  | odict (prs : List (Value × Value)) : (∀ kv ∈ prs, Untouched kv.2) →
      Good env (Value.odict prs)
  | date (y m d : Nat) : validDate y m d = true → Good env (Value.date y m d)
  | datetime (dt : DatetimeV) : validDatetime dt = true → Good env (Value.datetime dt)
  | decimal (s : String) : Good env (Value.decimal s)
  | typeRef (mod nm : String) : ':' ∉ mod.data → ':' ∉ nm.data →
      env.getAttr mod nm = some (Value.typeRef mod nm) → Good env (Value.typeRef mod nm)
  | funcRef (mod nm : String) : ':' ∉ mod.data → ':' ∉ nm.data →
      env.getAttr mod nm = some (Value.funcRef mod nm) → Good env (Value.funcRef mod nm)
  | moduleRef (nm : String) : env.getModule nm = true → Good env (Value.moduleRef nm)
  | entity (mod nm : String) (vals : List (String × Value)) (cd : ClassDesc) :
      env.getClass mod nm = some cd →
      cd.module = mod → cd.name = nm →
      ':' ∉ mod.data → ':' ∉ nm.data →
      (cd.fields.map FieldDesc.name).Nodup →
      (∀ f ∈ cd.fields, f.name ≠ META_FIELD) →
      (∀ f ∈ cd.fields, f.encode = Option.none) →
      (∀ f ∈ cd.fields, f.decode = Option.none) →
      vals.map Prod.fst = cd.fields.map FieldDesc.name →
      (∀ p ∈ List.zip cd.fields vals, p.2.2 = Value.none → p.1.isOptional = true) →
      (∀ p ∈ List.zip cd.fields vals, ∀ pr, p.1.contract = some pr →
        p.2.2 ≠ Value.none → pr p.2.2 = true) →
      (∀ kv ∈ vals, Good env kv.2) →
      Good env (Value.entity mod nm vals)

theorem good_ne_noDefault {env : Env} {v : Value} (h : Good env v) : v ≠ Value.noDefault := by
  intro heq
  subst heq
  cases h


/-! ## Construction lemmas -/

theorem applyDecode_none {f : FieldDesc} (h : f.decode = Option.none) (v : Value) :
    applyDecode f v = v := by
  unfold applyDecode
  rw [h]

@[simp] theorem isNoneV_none : isNoneV Value.none = true := rfl

theorem isNoneV_false_of_ne {v : Value} (h : v ≠ Value.none) : isNoneV v = false := by
  cases v
  case none => exact absurd rfl h
  all_goals rfl

theorem checkField_ok {cls : String} {f : FieldDesc} {v : Value}
    (hv0 : v = Value.none → f.isOptional = true)
    (hc : ∀ pr, f.contract = some pr → v ≠ Value.none → pr v = true) :
    checkField cls f v = Except.ok () := by
  unfold checkField
  by_cases hv : v = Value.none
  · have hopt := hv0 hv
    subst hv
    rw [if_neg (by simp [hopt])]
    cases hco : f.contract with
    | none => rfl
    | some p => simp
  · have hnv : isNoneV v = false := isNoneV_false_of_ne hv
    rw [if_neg (by simp [hnv])]
    cases hco : f.contract with
    | none => rfl
    | some p =>
      have hp := hc p hco hv
      simp [hnv, hp]

theorem checkNoDefault_ok {vals : List (String × Value)}
    (h : ∀ kv ∈ vals, kv.2 ≠ Value.noDefault) :
    checkNoDefault vals = Except.ok () := by
  induction vals with
  | nil => rfl
  | cons kv t ih =>
    have h1 := h kv (List.mem_cons_self kv t)
    unfold checkNoDefault
    split
    · rename_i heq
      exact absurd heq h1
    · exact ih fun x hx => h x (List.mem_cons_of_mem kv hx)

theorem validateFields_ok {cls : String} : ∀ {fields : List FieldDesc}
    {vals : List (String × Value)},
    (∀ f ∈ fields, ∃ v, lookupKey vals f.name = some v ∧ checkField cls f v = Except.ok ()) →
    validateFields cls fields vals = Except.ok () := by
  intro fields
  induction fields with
  | nil => intro vals _; rfl
  | cons f fs ih =>
    intro vals h
    obtain ⟨v, hv, hcf⟩ := h f (List.mem_cons_self f fs)
    unfold validateFields
    rw [hv]
    show (checkField cls f v).bind (fun _ => validateFields cls fs vals) = Except.ok ()
    rw [hcf]
    show validateFields cls fs vals = Except.ok ()
    exact ih fun g hg => h g (List.mem_cons_of_mem f hg)

theorem construct_ok {cd : ClassDesc} {vals : List (String × Value)}
    (hvc : _validate_contracts cd vals = Except.ok ())
    (hnd : ∀ kv ∈ vals, kv.2 ≠ Value.noDefault) :
    construct cd vals = Except.ok (Value.entity cd.module cd.name vals) := by
  unfold construct
  rw [hvc, checkNoDefault_ok hnd]
  rfl

/-! ## Round-trip helper lemmas for the list-shaped loops -/

theorem serializeList_roundtrip {env : Env} {sf df : Nat} : ∀ {xs : List Value},
    (∀ x ∈ xs, ∃ b, _serialize env sf x = Except.ok b ∧ _deserialize env df b = Except.ok x) →
    ∃ bs, serializeList env sf xs = Except.ok bs ∧ deserializeList env df bs = Except.ok xs := by
  intro xs
  induction xs with
  | nil => intro _; exact ⟨[], by simp⟩
  | cons x t ih =>
    intro h
    obtain ⟨b, hsb, hdb⟩ := h x (List.mem_cons_self x t)
    obtain ⟨bs, hst, hdt⟩ := ih fun y hy => h y (List.mem_cons_of_mem x hy)
    refine ⟨b :: bs, ?_, ?_⟩
    · rw [serializeList_cons, hsb, hst]
      rfl
    · rw [deserializeList_cons, hdb, hdt]
      rfl

theorem serializePairs_roundtrip {env : Env} {sf df : Nat} : ∀ {l : List (String × Value)},
    (∀ kv ∈ l, ∃ b, _serialize env sf kv.2 = Except.ok b ∧ _deserialize env df b = Except.ok kv.2) →
    ∃ bs, serializePairs env sf l = Except.ok bs ∧ bs.map Prod.fst = l.map Prod.fst ∧
      deserializePairs env df bs = Except.ok l := by
  intro l
  induction l with
  | nil => intro _; exact ⟨[], by simp⟩
  | cons kv t ih =>
    intro h
    obtain ⟨b, hsb, hdb⟩ := h kv (List.mem_cons_self kv t)
    obtain ⟨bs, hst, hkeys, hdt⟩ := ih fun y hy => h y (List.mem_cons_of_mem kv hy)
    obtain ⟨k, v⟩ := kv
    refine ⟨(k, b) :: bs, ?_, ?_, ?_⟩
    · rw [serializePairs_cons, hsb, hst]
      rfl
    · simpa using hkeys
    · rw [deserializePairs_cons, hdb, hdt]
      rfl

theorem deserializeODPairs_roundtrip {env : Env} {fuel : Nat} : ∀ {prs : List (Value × Value)},
    (∀ kv ∈ prs, _deserialize env fuel kv.2 = Except.ok kv.2) →
    deserializeODPairs env fuel (prs.map fun kv => Value.list [kv.1, kv.2]) = Except.ok prs := by
  intro prs
  induction prs with
  | nil => intro _; simp
  | cons kv t ih =>
    intro h
    obtain ⟨k, v⟩ := kv
    rw [List.map_cons]
    rw [show Value.list [k, v] = Value.list (k :: v :: []) from rfl]
    rw [deserializeODPairs_cons_list, h (k, v) (List.mem_cons_self (k, v) t),
      ih fun y hy => h y (List.mem_cons_of_mem (k, v) hy)]
    rfl

/-! ## Round-trip lemmas for entity field loops -/

theorem serializeFields_roundtrip {env : Env} {sf df : Nat} {cls : String} :
    ∀ {fields : List FieldDesc} {vals : List (String × Value)}
      {full : List (String × Value)},
    List.Forall₂ (fun (f : FieldDesc) (kv : String × Value) =>
      f.encode = Option.none ∧ (kv.2 = Value.none → f.isOptional = true) ∧
      ∃ b, _serialize env sf kv.2 = Except.ok b ∧ _deserialize env df b = Except.ok kv.2)
      fields vals →
    (∀ p ∈ List.zip fields vals, lookupKey full p.1.name = some p.2.2) →
    ∃ bs, serializeFields env sf cls fields full = Except.ok bs ∧
      List.Forall₂ (fun (p : FieldDesc × (String × Value)) (bkv : String × Value) =>
        bkv.1 = p.1.name ∧ _deserialize env df bkv.2 = Except.ok p.2.2)
        (List.zip fields vals) bs := by
  intro fields
  induction fields with
  | nil =>
    intro vals full hF _
    cases hF
    exact ⟨[], by simp, by simp [List.zip]⟩
  | cons f fs ih =>
    intro vals full hF hlk
    cases hF with
    | cons hrel htail =>
      rename_i kv kvs
      obtain ⟨henc, hopt, b, hsb, hdb⟩ := hrel
      have hlk1 : lookupKey full f.name = some kv.2 := by
        have := hlk (f, kv) (by rw [List.zip_cons_cons]; exact List.mem_cons_self _ _)
        exact this
      obtain ⟨bs, hst, hF2⟩ := ih htail fun p hp =>
        hlk p (by rw [List.zip_cons_cons]; exact List.mem_cons_of_mem _ hp)
      refine ⟨(f.name, b) :: bs, ?_, ?_⟩
      · rw [serializeFields_cons_found env sf cls fs hlk1,
          serializeField_noEncode env sf cls henc hopt, hsb, hst]
        rfl
      · rw [List.zip_cons_cons]
        exact List.Forall₂.cons ⟨rfl, hdb⟩ hF2

theorem forall₂_zip_keys : ∀ {fields : List FieldDesc} {vals bs : List (String × Value)}
    {env : Env} {df : Nat},
    List.Forall₂ (fun (p : FieldDesc × (String × Value)) (bkv : String × Value) =>
      bkv.1 = p.1.name ∧ _deserialize env df bkv.2 = Except.ok p.2.2)
      (List.zip fields vals) bs →
    fields.length = vals.length →
    bs.map Prod.fst = fields.map FieldDesc.name := by
  intro fields
  induction fields with
  | nil =>
    intro vals bs env df hF _
    simp [List.zip] at hF
    cases hF
    rfl
  | cons f fs ih =>
    intro vals bs env df hF hlen
    cases vals with
    | nil => simp at hlen
    | cons kv kvs =>
      rw [List.zip_cons_cons] at hF
      cases hF with
      | cons hrel htail =>
        rename_i bkv bs2
        rw [List.map_cons, List.map_cons, hrel.1]
        rw [ih htail (by simpa using hlen)]

theorem resolveFields_reconstruct {env : Env} {df : Nat} {cls : String} :
    ∀ {fields : List FieldDesc} {vals bs data : List (String × Value)},
    (∀ f ∈ fields, f.decode = Option.none) →
    fields.length = vals.length →
    List.Forall₂ (fun (p : FieldDesc × (String × Value)) (bkv : String × Value) =>
      bkv.1 = p.1.name ∧ _deserialize env df bkv.2 = Except.ok p.2.2)
      (List.zip fields vals) bs →
    (∀ p ∈ List.zip fields bs, lookupKey data p.1.name = some p.2.2) →
    (∀ p ∈ List.zip fields vals, p.2.1 = p.1.name) →
    resolveFields env df cls fields data = Except.ok vals := by
  intro fields
  induction fields with
  | nil =>
    intro vals bs data _ hlen hF _ _
    cases vals with
    | nil => simp
    | cons kv kvs => simp at hlen
  | cons f fs ih =>
    intro vals bs data hdec hlen hF hlk hname
    cases vals with
    | nil => simp at hlen
    | cons kv kvs =>
      rw [List.zip_cons_cons] at hF
      cases hF with
      | cons hrel htail =>
        rename_i bkv bs2
        have hlk1 : lookupKey data f.name = some bkv.2 := by
          have := hlk (f, bkv) (by rw [List.zip_cons_cons]; exact List.mem_cons_self _ _)
          exact this
        have hname1 : kv.1 = f.name := by
          have := hname (f, kv) (by rw [List.zip_cons_cons]; exact List.mem_cons_self _ _)
          exact this
        rw [resolveFields_cons, resolveField_present df cls hlk1, hrel.2,
          ih (fun g hg => hdec g (List.mem_cons_of_mem f hg)) (by simpa using hlen) htail
          (fun p hp => hlk p (by rw [List.zip_cons_cons]; exact List.mem_cons_of_mem _ hp))
          (fun p hp => hname p (by rw [List.zip_cons_cons]; exact List.mem_cons_of_mem _ hp))]
        have had := applyDecode_none (hdec f (List.mem_cons_self f fs)) kv.2
        simp [Except.map, Except.bind, had, ← hname1]


/-! ## The round-trip theorem -/

theorem lookup_pair_meta (a b : Value) :
    lookupKey [(META_FIELD, a), ("value", b)] META_FIELD = some a := by
  simp [lookupKey]

theorem lookup_pair_value (a b : Value) :
    lookupKey [(META_FIELD, a), ("value", b)] "value" = some b := by
  simp [lookupKey, META_FIELD]

theorem good_roundtrip (env : Env) (sf df : Nat) :
    ∀ {v : Value}, Good env v →
      ∃ b, _serialize env sf v = Except.ok b ∧ _deserialize env df b = Except.ok v := by
  intro v h
  induction h with
  | none_ => exact ⟨Value.none, by simp, by simp⟩
  | bool b => exact ⟨Value.bool b, by simp, by simp⟩
  | int n => exact ⟨Value.int n, by simp, by simp⟩
  | str s => exact ⟨Value.str s, by simp, by simp⟩
  | decimal s =>
    exact ⟨_, by simp, _deserialize_tag_decimal df (lookup_pair_meta _ _) (lookup_pair_value _ _)⟩
  | date y m d hvd =>
    exact ⟨_, by simp, _deserialize_tag_date df (lookup_pair_meta _ _) (lookup_pair_value _ _)
      (strptimeYmd_format hvd)⟩
  | datetime dt hdt =>
    refine ⟨Value.dict [(META_FIELD, Value.str "datetime"), ("value", Value.str (isoformat dt))],
      by simp, _deserialize_tag_datetime df (lookup_pair_meta _ _) (lookup_pair_value _ _) ?_⟩
    exact fromisoformat_isoChars hdt
  | typeRef mod nm hmc hnc hattr =>
    exact ⟨_, by simp, _deserialize_tag_typefn_found df (Or.inl rfl) (lookup_pair_meta _ _)
      (lookup_pair_value _ _) (splitColon_append hmc hnc) hattr⟩
  | funcRef mod nm hmc hnc hattr =>
    exact ⟨_, by simp, _deserialize_tag_typefn_found df (Or.inr rfl) (lookup_pair_meta _ _)
      (lookup_pair_value _ _) (splitColon_append hmc hnc) hattr⟩
  | moduleRef nm hmod =>
    exact ⟨_, by simp, _deserialize_tag_module_found df (lookup_pair_meta _ _)
      (lookup_pair_value _ _) hmod⟩
  | set xs hxs =>
    refine ⟨Value.dict [(META_FIELD, Value.str "set"), ("value", Value.list xs)], by simp, ?_⟩
    rw [_deserialize_tag_set df (lookup_pair_meta _ _) (lookup_pair_value _ _),
      deserializeList_ok fun x hx => untouched_deserialize (untouched_of_prim (hxs x hx))]
    rfl
  | odict prs hprs =>
    refine ⟨Value.dict [(META_FIELD, Value.str "OrderedDict"),
      ("value", Value.list (prs.map fun kv => Value.list [kv.1, kv.2]))], by simp, ?_⟩
    rw [_deserialize_tag_odict df (lookup_pair_meta _ _) (lookup_pair_value _ _),
      deserializeODPairs_roundtrip fun kv hkv => untouched_deserialize (hprs kv hkv)]
    rfl
  | list xs hxs ih =>
    obtain ⟨bs, hsl, hdl⟩ := serializeList_roundtrip ih
    refine ⟨Value.list bs, ?_, ?_⟩
    · rw [_serialize_list, hsl]
      rfl
    · rw [_deserialize_list, hdl]
      rfl
  | tuple xs hxs ih =>
    obtain ⟨bs, hsl, hdl⟩ := serializeList_roundtrip ih
    refine ⟨Value.dict [(META_FIELD, Value.str "tuple"), ("value", Value.list bs)], ?_, ?_⟩
    · rw [_serialize_tuple, hsl]
      rfl
    · rw [_deserialize_tag_tuple df (lookup_pair_meta _ _) (lookup_pair_value _ _), hdl]
      rfl
  | dict l hlmeta hlv ih =>
    obtain ⟨bs, hsp, hkeys, hdp⟩ := serializePairs_roundtrip ih
    have hb : ∀ kv ∈ bs, kv.1 ≠ META_FIELD := by
      intro kv hkv
      have hmem : kv.1 ∈ l.map Prod.fst := by
        rw [← hkeys]
        exact List.mem_map.mpr ⟨kv, hkv, rfl⟩
      obtain ⟨kv2, hkv2, hfst⟩ := List.mem_map.mp hmem
      exact hfst ▸ hlmeta kv2 hkv2
    refine ⟨Value.dict bs, ?_, ?_⟩
    · rw [_serialize_dict, hsp]
      rfl
    · rw [_deserialize_dict_nometa df (lookupKey_eq_none hb), hdp]
      rfl
  | entity mod nm vals cd hcls hmod hnm hmc hnc hnodup hfm hencs hdecs hkeys hopts hcons hgood ih =>
    have hlen : cd.fields.length = vals.length := by
      have hl := congrArg List.length hkeys
      simpa using hl.symm
    have hpos := lookup_zip_positional cd.fields vals hkeys hnodup
    have hF : List.Forall₂ (fun (f : FieldDesc) (kv : String × Value) =>
        f.encode = Option.none ∧ (kv.2 = Value.none → f.isOptional = true) ∧
        ∃ b, _serialize env sf kv.2 = Except.ok b ∧ _deserialize env df b = Except.ok kv.2)
        cd.fields vals := by
      rw [List.forall₂_iff_zip]
      refine ⟨hlen, ?_⟩
      intro f kv hp
      exact ⟨hencs f (zip_mem_left hp), fun h0 => hopts (f, kv) hp h0, ih kv (zip_mem_right hp)⟩
    obtain ⟨bs, hsf, hF2⟩ := serializeFields_roundtrip hF fun p hp => (hpos p hp).2
    have hbkeys : bs.map Prod.fst = cd.fields.map FieldDesc.name := forall₂_zip_keys hF2 hlen
    have hserN : _serialize env sf (Value.entity mod nm vals) =
        Except.ok (Value.dict (bs ++ [(META_FIELD, Value.str (mod ++ ":" ++ nm))])) := by
      rw [_serialize_entity_some sf vals hcls]
      unfold serializeObj
      rw [hsf, hmod, hnm]
      rfl
    refine ⟨_, hserN, ?_⟩
    have hbnm : ∀ kv ∈ bs, kv.1 ≠ META_FIELD := by
      intro kv hkv
      have hmem : kv.1 ∈ cd.fields.map FieldDesc.name := by
        rw [← hbkeys]
        exact List.mem_map.mpr ⟨kv, hkv, rfl⟩
      obtain ⟨f, hf, hfn⟩ := List.mem_map.mp hmem
      exact hfn ▸ hfm f hf
    have hmeta : lookupKey (bs ++ [(META_FIELD, Value.str (mod ++ ":" ++ nm))]) META_FIELD =
        some (Value.str (mod ++ ":" ++ nm)) := by
      rw [lookupKey_append_right hbnm]
      simp [lookupKey]
    rw [_deserialize_entity_dispatch df hmeta (notBuiltinTag_of_colon (colon_mem_append mod nm))
      (splitColon_append hmc hnc) hcls]
    unfold deserializeObj
    have hdata : removeKey META_FIELD (bs ++ [(META_FIELD, Value.str (mod ++ ":" ++ nm))]) = bs := by
      rw [removeKey_append, removeKey_of_none hbnm]
      simp [removeKey]
    rw [hdata]
    have hlkbs := lookup_zip_positional cd.fields bs hbkeys hnodup
    rw [resolveFields_reconstruct hdecs hlen hF2 (fun p hp => (hlkbs p hp).2)
      fun p hp => (hpos p hp).1]
    have hvc : _validate_contracts cd vals = Except.ok () := by
      apply validateFields_ok
      intro f hf
      obtain ⟨kv, hkv⟩ := exists_zip_of_mem hf hlen
      have hp := hpos (f, kv) hkv
      exact ⟨kv.2, hp.2, checkField_ok (fun h0 => hopts (f, kv) hkv h0)
        fun pr hpr hne => hcons (f, kv) hkv pr hpr hne⟩
    have hcon : construct cd vals = Except.ok (Value.entity mod nm vals) := by
      rw [construct_ok hvc fun kv hkv => good_ne_noDefault (hgood kv hkv), hmod, hnm]
    show construct cd vals = Except.ok (Value.entity mod nm vals)
    exact hcon


/-! ## Operational model of the caller-visible mapping (`data.copy()`) -/

/-- Operational model of `Serializable.deserialize`'s treatment of the
caller's mapping.  Dict objects live in a heap (address = index); the
method reads the caller's dict at `a`, makes a copy (`data =
data.copy()`, a fresh allocation appended to the heap), pops the marker
key on the copy only, and resolves fields against the copy.  Returns
the heap after the call and the call's result. -/
def deserializeOp (env : Env) (fuel : Nat) (cd : ClassDesc)
    (heap : List (List (String × Value))) (a : Nat) :
    List (List (String × Value)) × Except Err Value :=
  let d := heap.getD a []
  let copy := removeKey META_FIELD d
  (heap ++ [copy],
    (resolveFields env fuel cd.name cd.fields copy).bind (construct cd))

/-! ## Success-direction lemmas for construction -/

theorem checkField_success {cls : String} {f : FieldDesc} {v : Value}
    (h : checkField cls f v = Except.ok ()) :
    (v = Value.none → f.isOptional = true) ∧
    (∀ pr, f.contract = some pr → v ≠ Value.none → pr v = true) := by
  constructor
  · intro hv
    subst hv
    by_cases hopt : f.isOptional
    · exact hopt
    · exfalso
      unfold checkField at h
      rw [if_pos (by simp [hopt])] at h
      cases h
  · intro pr hpr hne
    have hnv : isNoneV v = false := isNoneV_false_of_ne hne
    by_cases hp : pr v = true
    · exact hp
    · exfalso
      unfold checkField at h
      rw [if_neg (by simp [hnv]), hpr] at h
      rw [Bool.not_eq_true] at hp
      simp [hnv, hp] at h

theorem validateFields_success {cls : String} : ∀ {fields : List FieldDesc}
    {vals : List (String × Value)},
    validateFields cls fields vals = Except.ok () →
    ∀ f ∈ fields, ∀ v, lookupKey vals f.name = some v → checkField cls f v = Except.ok () := by
  intro fields
  induction fields with
  | nil => intro vals _ f hf; cases hf
  | cons g gs ih =>
    intro vals h f hf v hv
    unfold validateFields at h
    rcases hlk : lookupKey vals g.name with _ | w
    · rw [hlk] at h
      cases h
    · rw [hlk] at h
      replace h : (checkField cls g w).bind (fun _ => validateFields cls gs vals) =
        Except.ok () := h
      rcases hcf : checkField cls g w with e | u
      · rw [hcf] at h
        replace h : (Except.error e : Except Err Unit) = Except.ok () := h
        cases h
      · rw [hcf] at h
        replace h : validateFields cls gs vals = Except.ok () := h
        rcases List.mem_cons.mp hf with rfl | hf2
        · rw [hv] at hlk
          injection hlk with hlk
          rw [← hlk] at hcf
          rw [hcf]
        · exact ih h f hf2 v hv

theorem construct_success_validate {cd : ClassDesc} {vals : List (String × Value)} {e : Value}
    (h : construct cd vals = Except.ok e) : _validate_contracts cd vals = Except.ok () := by
  unfold construct at h
  rcases hvc : _validate_contracts cd vals with err | u
  · rw [hvc] at h
    cases h
  · rfl

theorem construct_success_noDefault {cd : ClassDesc} {vals : List (String × Value)} {e : Value}
    (h : construct cd vals = Except.ok e) : checkNoDefault vals = Except.ok () := by
  unfold construct at h
  rcases hvc : _validate_contracts cd vals with err | u
  · rw [hvc] at h
    cases h
  · rw [hvc] at h
    rcases hnd : checkNoDefault vals with err | u2
    · rw [hnd] at h
      cases h
    · rfl

theorem checkNoDefault_success : ∀ {vals : List (String × Value)},
    checkNoDefault vals = Except.ok () → ∀ kv ∈ vals, kv.2 ≠ Value.noDefault := by
  intro vals
  induction vals with
  | nil => intro _ kv hkv; cases hkv
  | cons kv t ih =>
    intro h x hx
    unfold checkNoDefault at h
    rcases List.mem_cons.mp hx with rfl | hx2
    · intro heq
      rw [heq] at h
      cases h
    · rcases h2 : kv.2 with _ | _ | _ | _ | _ | _ | _ | _ | _ | _ | _ | _ | _ | _ | _ | _
      all_goals (rw [h2] at h; first | cases h | exact ih h x hx2)

theorem checkNoDefault_mem_error : ∀ {vals : List (String × Value)} {k : String},
    (k, Value.noDefault) ∈ vals →
    ∃ k2, (k2, Value.noDefault) ∈ vals ∧
      checkNoDefault vals = Except.error
        (Err.typeError ("__init__ missing 1 required argument: " ++ squote k2)) := by
  intro vals
  induction vals with
  | nil => intro k hk; cases hk
  | cons kv t ih =>
    intro k hk
    rcases h2 : kv.2 with _ | _ | _ | _ | _ | _ | _ | _ | _ | _ | _ | _ | _ | _ | _ | _
    case noDefault =>
      refine ⟨kv.1, ?_, ?_⟩
      · have : kv = (kv.1, Value.noDefault) := by
          rw [← h2]
        rw [← this]
        exact List.mem_cons_self kv t
      · unfold checkNoDefault
        rw [h2]
    all_goals (
      have hk2 : (k, Value.noDefault) ∈ t := by
        rcases List.mem_cons.mp hk with heq | ht
        · rw [← heq] at h2
          cases h2
        · exact ht
      obtain ⟨k2, hmem, herr⟩ := ih hk2
      refine ⟨k2, List.mem_cons_of_mem kv hmem, ?_⟩
      unfold checkNoDefault
      rw [h2]
      exact herr)

theorem lookupKey_removeKey_none {data : List (String × Value)} {k k2 : String}
    (h : lookupKey data k = Option.none) : lookupKey (removeKey k2 data) k = Option.none := by
  induction data with
  | nil => rfl
  | cons kv t ih =>
    unfold lookupKey at h
    by_cases hk : kv.1 = k
    · rw [if_pos hk] at h
      cases h
    · rw [if_neg hk] at h
      unfold removeKey
      by_cases hk2 : kv.1 = k2
      · rw [if_pos hk2]
        exact ih h
      · rw [if_neg hk2]
        unfold lookupKey
        rw [if_neg hk]
        exact ih h


/-! ## Test fixtures for witnesses -/

/-- The single required `value` field of the test class. -/
def itemField : FieldDesc :=
  ⟨"value", false, Option.none, Option.none, Option.none, Option.none, Option.none⟩

/-- A one-field test class, mirroring `Item` from the test-suite. -/
def itemClass : ClassDesc := ⟨"m", "Item", [itemField]⟩

/-- A test import environment registering only `m:Item`. -/
def testEnv : Env where
  getClass := fun md nm => if md = "m" ∧ nm = "Item" then some itemClass else Option.none
  getAttr := fun _ _ => Option.none
  getModule := fun _ => false

/-! ## The claims -/

/-- C1.  Round-trip identity: for every entity instance (modelled by a
registered class `cd` and a field mapping `vals` forming a `Good`
value, which covers all the built-in kinds as field values — ordered
maps, tuples including nested tuples, sets of primitives, dates,
timezone-aware datetimes, decimals, type / function / module
references, nested entities, nested lists, and string-keyed maps to
entity values), `deserialize` applied to the blob produced by the
instance's `serialize` routine returns a value equal to the instance. -/
theorem c1_entity_roundtrip (env : Env) (sf df : Nat) (mod nm : String)
    (vals : List (String × Value)) (cd : ClassDesc)
    (hcls : env.getClass mod nm = some cd)
    (h : Good env (Value.entity mod nm vals)) :
    ∃ blob, serializeObj env sf cd vals = Except.ok blob ∧
      deserialize env df blob = Except.ok (Value.entity mod nm vals) := by
  obtain ⟨b, hs, hd⟩ := good_roundtrip env sf df h
  rw [_serialize_entity_some sf vals hcls] at hs
  exact ⟨b, hs, hd⟩

theorem c1_witness : ∃ blob,
    serializeObj testEnv 0 itemClass [("value", Value.int 1)] = Except.ok blob ∧
    deserialize testEnv 0 blob = Except.ok (Value.entity "m" "Item" [("value", Value.int 1)]) := by
  refine c1_entity_roundtrip testEnv 0 0 "m" "Item" [("value", Value.int 1)] itemClass
    (by simp [testEnv]) ?_
  refine Good.entity "m" "Item" [("value", Value.int 1)] itemClass
    (by simp [testEnv]) rfl rfl (by decide) (by decide)
    (by simp [itemClass, itemField]) ?_ ?_ ?_ rfl ?_ ?_ ?_
  · intro f hf
    simp [itemClass] at hf
    subst hf
    decide
  · intro f hf
    simp [itemClass] at hf
    subst hf
    rfl
  · intro f hf
    simp [itemClass] at hf
    subst hf
    rfl
  · intro p hp
    rw [show List.zip itemClass.fields [("value", Value.int 1)] =
      [(itemField, ("value", Value.int 1))] from rfl] at hp
    have hp2 := List.mem_singleton.mp hp
    subst hp2
    intro h0
    cases h0
  · intro p hp
    rw [show List.zip itemClass.fields [("value", Value.int 1)] =
      [(itemField, ("value", Value.int 1))] from rfl] at hp
    have hp2 := List.mem_singleton.mp hp
    subst hp2
    intro pr hpr
    exact absurd hpr (by simp [itemField])
  · intro kv hkv
    have hkv2 := List.mem_singleton.mp hkv
    subst hkv2
    exact Good.int 1

/-- C2.  During `Serializable.deserialize` (whose per-field step is
`resolveField`), a declared field absent from the input whose declared
type permits `None` resolves to `None` outright, and the remaining
resolution steps are skipped: the result does not depend on the field's
declared default, default factory, or `decode` hook. -/
theorem c2_absent_optional_null (env : Env) (fuel : Nat) (cls : String) (f : FieldDesc)
    (data : List (String × Value))
    (habs : lookupKey data f.name = Option.none)
    (hopt : f.isOptional = true) :
    resolveField env fuel cls f data = Except.ok Value.none ∧
    (∀ d dfac dec, resolveField env fuel cls
      { f with default := d, defaultFactory := dfac, decode := dec } data =
        Except.ok Value.none) := by
  constructor
  · exact resolveField_absent_optional fuel cls habs hopt
  · intro d dfac dec
    exact resolveField_absent_optional fuel cls habs hopt

theorem c2_witness :
    resolveField testEnv 0 "Item"
      ⟨"value", true, some (Value.int 7), Option.none, Option.none, Option.none, Option.none⟩
      [] = Except.ok Value.none := by
  exact (c2_absent_optional_null testEnv 0 "Item"
    ⟨"value", true, some (Value.int 7), Option.none, Option.none, Option.none, Option.none⟩
    [] rfl rfl).1

/-- C3.  During `Serializable.deserialize`, a declared field absent from
the input whose declared type does not permit `None` falls back to the
declared default if one exists, else to the default factory's value if
one exists, and otherwise fails with a `ValueError` whose message names
the field and the class and contains "deserialized with unknown value".
In the fallback cases the default is untagged (and the `decode` hook
applied) exactly like a present value, which consumes a unit of the
embedding's fuel. -/
theorem c3_absent_fallback (env : Env) (s : Nat) (cls : String) (f : FieldDesc)
    (data : List (String × Value))
    (habs : lookupKey data f.name = Option.none)
    (hopt : f.isOptional = false) :
    (∀ d, f.default = some d →
      resolveField env (s + 1) cls f data = (_deserialize env s d).map (applyDecode f)) ∧
    (∀ d, f.default = Option.none → f.defaultFactory = some d →
      resolveField env (s + 1) cls f data = (_deserialize env s d).map (applyDecode f)) ∧
    (f.default = Option.none → f.defaultFactory = Option.none →
      resolveField env (s + 1) cls f data =
        Except.error (Err.valueError
          ("deserialized with unknown value for " ++ f.name ++ " in " ++ cls))) := by
  refine ⟨?_, ?_, ?_⟩
  · intro d hd
    refine resolveField_absent_default s cls habs hopt ?_
    unfold _default_value
    rw [hd]
  · intro d hd hdf
    refine resolveField_absent_default s cls habs hopt ?_
    unfold _default_value
    rw [hd, hdf]
  · intro hd hdf
    refine resolveField_absent_missing (s + 1) cls habs hopt ?_
    unfold _default_value
    rw [hd, hdf]

theorem c3_witness :
    resolveField testEnv 1 "Item"
      ⟨"value", false, some (Value.int 5), Option.none, Option.none, Option.none, Option.none⟩
      [] = (_deserialize testEnv 0 (Value.int 5)).map
        (applyDecode ⟨"value", false, some (Value.int 5), Option.none, Option.none,
          Option.none, Option.none⟩) ∧
    resolveField testEnv 1 "Item" itemField [] =
      Except.error (Err.valueError ("deserialized with unknown value for " ++ "value" ++
        " in " ++ "Item")) := by
  constructor
  · exact (c3_absent_fallback testEnv 0 "Item" _ [] rfl rfl).1 (Value.int 5) rfl
  · exact (c3_absent_fallback testEnv 0 "Item" itemField [] rfl rfl).2.2 rfl rfl


/-- An `encode` hook mapping every value to `None`. -/
def encToNone : Value → Value := fun _ => Value.none

/-- An identity `decode` hook. -/
def decId : Value → Value := fun v => v

/-- A non-optional field with an `encode` hook that returns `None` and a
paired identity `decode`. -/
def fieldEncToNone : FieldDesc :=
  ⟨"value", false, Option.none, Option.none, some encToNone, some decId, Option.none⟩

/-- A non-optional field declaring `encode` without a paired `decode`. -/
def fieldEncNoDec : FieldDesc :=
  ⟨"value", false, Option.none, Option.none, some encToNone, Option.none, Option.none⟩

/-- A one-field class whose field declares `encode` without `decode`. -/
def classEncNoDec : ClassDesc := ⟨"m", "C", [fieldEncNoDec]⟩

/-- C4 (counterexample).  The claim asserts that the null check runs on
the post-encode value, so serializing a non-optional field whose raw
value is `1` but whose `encode` hook returns `None` would have to fail
with a TypeError.  The code checks the raw value before running the
hook, so this serialization succeeds and stores `None`. -/
theorem c4_counterexample :
    serializeField testEnv 1 "C" fieldEncToNone (Value.int 1) = Except.ok Value.none := by
  rw [serializeField_encode_decode testEnv 0 "C" rfl rfl fun h => Value.noConfusion h]
  simp [encToNone]

/-- C4 (amended).  In the serialize direction the null check runs on the
raw field value before any `encode` hook: serialization fails with a
TypeError exactly at the raw-null / non-optional combination, a null
raw value on an optional field passes through, and a declared `encode`
hook (with its paired `decode`) is applied after the check, its output
being tagged without any further null check. -/
theorem c4_null_check_pre_encode (env : Env) (fuel s : Nat) (cls : String) (f : FieldDesc)
    (v : Value) :
    (f.isOptional = false →
      serializeField env fuel cls f Value.none =
        Except.error (Err.typeError (f.name ++ " is not optional"))) ∧
    (f.isOptional = true → f.encode = Option.none →
      serializeField env fuel cls f Value.none = Except.ok Value.none) ∧
    (∀ enc dec, f.encode = some enc → f.decode = some dec →
      (v = Value.none → f.isOptional = true) →
      serializeField env (s + 1) cls f v = _serialize env s (enc v)) := by
  refine ⟨?_, ?_, ?_⟩
  · intro hopt
    exact serializeField_none_notOptional env fuel cls hopt
  · intro hopt henc
    rw [serializeField_noEncode env fuel cls henc fun _ => hopt]
    simp
  · intro enc dec henc hdec h
    exact serializeField_encode_decode env s cls henc hdec h

theorem c4_witness :
    serializeField testEnv 0 "Item" itemField Value.none =
      Except.error (Err.typeError ("value" ++ " is not optional")) := by
  exact (c4_null_check_pre_encode testEnv 0 0 "Item" itemField Value.none).1 rfl

/-- C5.  The value tagger maps a set to the marked blob
`{"__ser__": "set", "value": [elements]}` with the member list taken
verbatim — the elements are not recursively tagged.  Consequently a set
whose elements are not JSON primitives (here a `date`) yields a blob
that is not JSON-serializable, so it cannot survive the JSON text
boundary of a round trip, while the same `date` tagged on its own
yields a JSON-safe blob. -/
theorem c5_set_tagging (env : Env) (fuel : Nat) :
    (∀ xs : List Value, _serialize env fuel (Value.set xs) =
      Except.ok (Value.dict [(META_FIELD, Value.str "set"), ("value", Value.list xs)])) ∧
    jsonSafe (Value.dict [(META_FIELD, Value.str "set"),
      ("value", Value.list [Value.date 2015 11 11])]) = false ∧
    (∃ b, _serialize env fuel (Value.date 2015 11 11) = Except.ok b ∧ jsonSafe b = true) := by
  refine ⟨fun xs => by simp, by simp,
    ⟨Value.dict [(META_FIELD, Value.str "date"), ("value", Value.str (formatYmd 2015 11 11))],
      by simp, by simp⟩⟩

/-- C6.  Construction (`__post_init__`) establishes the invariants: a
successfully constructed instance has no field holding `None` unless
its declared type permits `None`, and every declared contract holds on
every non-`None` field value; a `None` value on a non-optional field
fails the per-field check with a TypeError naming the field, a failing
contract on a non-`None` value fails it with a ValueError naming the
field and the class, and the contract is skipped entirely when the
value is `None` (the check's outcome does not depend on it). -/
theorem c6_construction_invariants (cd : ClassDesc) (vals : List (String × Value))
    (cls : String) (f : FieldDesc) (v : Value) :
    (∀ e, construct cd vals = Except.ok e →
      ∀ g ∈ cd.fields, ∀ w, lookupKey vals g.name = some w →
        (w = Value.none → g.isOptional = true) ∧
        (∀ pr, g.contract = some pr → w ≠ Value.none → pr w = true)) ∧
    (f.isOptional = false →
      checkField cls f Value.none =
        Except.error (Err.typeError (f.name ++ " is not optional"))) ∧
    (∀ pr, f.contract = some pr → v ≠ Value.none → pr v = false →
      checkField cls f v =
        Except.error (Err.valueError ("break the contract for " ++ f.name ++ ", " ++ cls))) ∧
    (∀ c1 c2, checkField cls { f with contract := c1 } Value.none =
      checkField cls { f with contract := c2 } Value.none) := by
  refine ⟨?_, ?_, ?_, ?_⟩
  · intro e hok g hg w hw
    exact checkField_success (validateFields_success (construct_success_validate hok) g hg w hw)
  · intro hopt
    unfold checkField
    rw [if_pos (by simp [hopt])]
  · intro pr hpr hne hpf
    have hnv : isNoneV v = false := isNoneV_false_of_ne hne
    unfold checkField
    rw [if_neg (by simp [hnv]), hpr]
    simp [hnv, hpf]
  · intro c1 c2
    obtain ⟨nm0, opt0, d0, df0, e0, de0, co0⟩ := f
    unfold checkField
    by_cases hopt : opt0
    · rw [if_neg (by simp [hopt]), if_neg (by simp [hopt])]
      cases c1 <;> cases c2 <;> simp
    · rw [if_pos (by simp [hopt]), if_pos (by simp [hopt])]

theorem c6_witness :
    checkField "Item" itemField Value.none =
      Except.error (Err.typeError ("value" ++ " is not optional")) := by
  exact (c6_construction_invariants itemClass [] "Item" itemField Value.none).2.1 rfl

/-- C7.  A field declaring an `encode` hook without a paired `decode`
makes serialization fail with a ValueError naming the field and the
class: the per-field serializer raises it (whenever the prior null
check passes), and so does `Serializable.serialize` of any instance of
a class declaring such a field first. -/
theorem c7_encode_without_decode (env : Env) (fuel : Nat) (f : FieldDesc)
    (v : Value) (enc : Value → Value)
    (henc : f.encode = some enc) (hdec : f.decode = Option.none)
    (hnn : v = Value.none → f.isOptional = true) :
    (∀ cls, serializeField env fuel cls f v =
      Except.error (Err.valueError
        ("decode is not implemented for " ++ f.name ++ " in " ++ cls))) ∧
    (∀ cd fs vals, cd.fields = f :: fs → lookupKey vals f.name = some v →
      serializeObj env fuel cd vals =
        Except.error (Err.valueError
          ("decode is not implemented for " ++ f.name ++ " in " ++ cd.name))) := by
  constructor
  · intro cls
    exact serializeField_encode_noDecode env fuel cls henc hdec hnn
  · intro cd fs vals hfields hv
    unfold serializeObj
    rw [hfields, serializeFields_cons_found env fuel cd.name fs hv,
      serializeField_encode_noDecode env fuel cd.name henc hdec hnn]
    rfl

theorem c7_witness :
    serializeObj testEnv 0 classEncNoDec [("value", Value.int 1)] =
      Except.error (Err.valueError
        ("decode is not implemented for " ++ "value" ++ " in " ++ "C")) := by
  exact (c7_encode_without_decode testEnv 0 fieldEncNoDec (Value.int 1) encToNone rfl rfl
    fun h => Value.noConfusion h).2 classEncNoDec [] [("value", Value.int 1)] rfl rfl

/-- C8.  Untagging a marked blob carrying a `type`, `function` or
`module` tag whose referenced scope or member the dynamic-import
collaborator cannot resolve fails with a LookupError-kind failure, and
so does dispatching an entity type identifier that resolves to no
registered class. -/
theorem c8_lookup_failures (env : Env) (fuel : Nat) (entries : List (String × Value))
    (s tag m c : String) :
    ((lookupKey entries META_FIELD = some (Value.str "type") →
      lookupKey entries "value" = some (Value.str s) →
      splitColon s = some (m, c) → env.getAttr m c = Option.none →
      _deserialize env fuel (Value.dict entries) =
        Except.error (Err.lookupError (m ++ ":" ++ c)))) ∧
    ((lookupKey entries META_FIELD = some (Value.str "function") →
      lookupKey entries "value" = some (Value.str s) →
      splitColon s = some (m, c) → env.getAttr m c = Option.none →
      _deserialize env fuel (Value.dict entries) =
        Except.error (Err.lookupError (m ++ ":" ++ c)))) ∧
    ((lookupKey entries META_FIELD = some (Value.str "module") →
      lookupKey entries "value" = some (Value.str s) → env.getModule s = false →
      _deserialize env fuel (Value.dict entries) = Except.error (Err.lookupError s))) ∧
    (lookupKey entries META_FIELD = some (Value.str tag) → notBuiltinTag tag →
      splitColon tag = some (m, c) → env.getClass m c = Option.none →
      _deserialize env fuel (Value.dict entries) =
        Except.error (Err.lookupError (m ++ ":" ++ c))) := by
  refine ⟨?_, ?_, ?_, ?_⟩
  · intro hm hp hs ha
    exact _deserialize_tag_typefn_missing fuel (Or.inl rfl) hm hp hs ha
  · intro hm hp hs ha
    exact _deserialize_tag_typefn_missing fuel (Or.inr rfl) hm hp hs ha
  · intro hm hp hg
    exact _deserialize_tag_module_missing fuel hm hp hg
  · intro hm hnb hs hc
    exact _deserialize_entity_unresolved fuel hm hnb hs hc

theorem c8_witness :
    _deserialize testEnv 0
      (Value.dict [(META_FIELD, Value.str "type"), ("value", Value.str "a:b")]) =
      Except.error (Err.lookupError ("a" ++ ":" ++ "b")) := by
  exact (c8_lookup_failures testEnv 0
    [(META_FIELD, Value.str "type"), ("value", Value.str "a:b")] "a:b" "x" "a" "b").1
    (lookup_pair_meta _ _) (lookup_pair_value _ _) (by decide) rfl

/-- C9.  Constructing an instance while some attribute still holds the
`no_default` placeholder sentinel fails: when contract validation
passes, `__post_init__` raises a TypeError naming a field that holds
the sentinel, and in any case such a construction never succeeds. -/
theorem c9_noDefault_sentinel (cd : ClassDesc) (vals : List (String × Value)) (k : String) :
    (_validate_contracts cd vals = Except.ok () → (k, Value.noDefault) ∈ vals →
      ∃ k2, (k2, Value.noDefault) ∈ vals ∧
        construct cd vals = Except.error
          (Err.typeError ("__init__ missing 1 required argument: " ++ squote k2))) ∧
    ((k, Value.noDefault) ∈ vals → ∀ e, construct cd vals ≠ Except.ok e) := by
  constructor
  · intro hvc hk
    obtain ⟨k2, hmem, herr⟩ := checkNoDefault_mem_error hk
    refine ⟨k2, hmem, ?_⟩
    unfold construct
    rw [hvc]
    show (checkNoDefault vals).bind _ = _
    rw [herr]
    rfl
  · intro hk e hok
    exact absurd rfl
      (checkNoDefault_success (construct_success_noDefault hok) (k, Value.noDefault) hk)

theorem c9_witness : ∃ k2, (k2, Value.noDefault) ∈ [("value", Value.noDefault)] ∧
    construct itemClass [("value", Value.noDefault)] = Except.error
      (Err.typeError ("__init__ missing 1 required argument: " ++ squote k2)) := by
  exact (c9_noDefault_sentinel itemClass [("value", Value.noDefault)] "value").1
    rfl (List.mem_singleton.mpr rfl)

/-- C10.  `Serializable.deserialize` works on a copy of the caller's
mapping: in the heap model the caller's dict is unchanged by the call
(still holding all original entries, the reserved marker key included),
and the result of the call coincides with the pure `deserializeObj` on
the original mapping. -/
theorem c10_caller_map_unchanged (env : Env) (fuel : Nat) (cd : ClassDesc)
    (heap : List (List (String × Value))) (a : Nat) (h : a < heap.length) :
    (deserializeOp env fuel cd heap a).1[a]? = heap[a]? ∧
    (deserializeOp env fuel cd heap a).2 = deserializeObj env fuel cd (heap.getD a []) := by
  constructor
  · show (heap ++ [removeKey META_FIELD (heap.getD a [])])[a]? = heap[a]?
    exact List.getElem?_append_left h
  · rfl

theorem c10_witness :
    (deserializeOp testEnv 0 itemClass [[(META_FIELD, Value.str "m:Item"),
      ("value", Value.int 1)]] 0).1[0]? =
      [[(META_FIELD, Value.str "m:Item"), ("value", Value.int 1)]][0]? ∧
    (deserializeOp testEnv 0 itemClass [[(META_FIELD, Value.str "m:Item"),
      ("value", Value.int 1)]] 0).2 =
      deserializeObj testEnv 0 itemClass
        ([[(META_FIELD, Value.str "m:Item"), ("value", Value.int 1)]].getD 0 []) := by
  exact c10_caller_map_unchanged testEnv 0 itemClass _ 0 (by decide)

end DSer
